import Mathlib

/-!
# Monster-Shooter game: verification of the collision/offload core

A shallow embedding of the collision, serialization, spawner and
coordinator code of the Monster-Shooter repository, with theorems
settling the specification claims.

JS numbers are modelled as exact rationals (`ℚ`).  Where the source
calls `Math.sqrt`, the embedded function takes the square root as an
extra argument `dist`, and theorems constrain it by `IsSqrtOf`;
where the source calls `Math.random`, the embedded function takes the
drawn value as an oracle argument.  A JS division whose result can be
non-finite (`NaN`/`±Infinity`) is modelled by `jsdiv`, which returns
`none` exactly when the divisor is zero.
-/

namespace MS

/-- A circle entity `{x, y, radius, mass}` (the collision code reads and
writes these four fields only). -/
structure Circle where
  x : ℚ
  y : ℚ
  radius : ℚ
  mass : ℚ
deriving Repr, DecidableEq

/-- JS `a || d` on numbers: `d` replaces a falsy (zero) value. -/
def jsor (a d : ℚ) : ℚ := if a = 0 then d else a

/-- JS division, `none` modelling the non-finite result (`NaN` or
`±Infinity`) obtained when the divisor is zero. -/
def jsdiv (a b : ℚ) : Option ℚ := if b = 0 then none else some (a / b)

/-- `d` is the exact value `Math.sqrt a` would return. -/
def IsSqrtOf (d a : ℚ) : Prop := 0 ≤ d ∧ d ^ 2 = a

/-- `resolveCollision` from `src/unnamed/part_001` lines 14-43 (the same
function appears verbatim in `src/js/game-worker-thread.js` lines 256-285).
`dist` stands for the source's `Math.sqrt(dx*dx + dy*dy)`.  The result is
`none` when a division by zero makes the JS coordinates non-finite. -/
def resolveCollision (c1 c2 : Circle) (dist : ℚ) : Option (Circle × Circle) :=
  if c1.radius + c2.radius ≤ dist then some (c1, c2)
  else
    match jsdiv (c2.x - c1.x) dist, jsdiv (c2.y - c1.y) dist with
    | some directionX, some directionY =>
      let overlap := (c1.radius + c2.radius - dist) / 2
      let mass1 := jsor c1.mass 1
      let mass2 := jsor c2.mass 1
      match jsdiv mass2 (mass1 + mass2), jsdiv mass1 (mass1 + mass2) with
      | some f1, some f2 =>
        let circle1Move := f1 * overlap
        let circle2Move := f2 * overlap
        some ({ c1 with x := c1.x - directionX * circle1Move,
                        y := c1.y - directionY * circle1Move },
              { c2 with x := c2.x + directionX * circle2Move,
                        y := c2.y + directionY * circle2Move })
      | _, _ => none
    | _, _ => none

/-- Oracles for the worker's collision pass: `sqrtFn` stands for
`Math.sqrt`, and `(rc, rs)` for the `Math.cos`/`Math.sin` of the random
angle drawn in the degenerate branch.  No theorem below depends on the
values these oracles return. -/
structure Env where
  sqrtFn : ℚ → ℚ
  rc : ℚ
  rs : ℚ

/-- `resolveCollision` of the collision worker, `src/unnamed/part_000`
lines 348-394: squared-distance early exit, randomized nudge when the
centres coincide, then the mass-weighted separation.  In the final branch
the source guarantees `distance ≠ 0`, so plain rational division is exact
there; the mass quotient is likewise modelled as exact division (game
masses are positive, so `totalMass ≠ 0` on all data considered here). -/
def resolveCollisionW (env : Env) (c1 c2 : Circle) : Circle × Circle :=
  let dx := c2.x - c1.x
  let dy := c2.y - c1.y
  let distanceSquared := dx * dx + dy * dy
  let radiusSum := c1.radius + c2.radius
  if radiusSum * radiusSum ≤ distanceSquared then (c1, c2)
  else
    let distance := env.sqrtFn distanceSquared
    if distance = 0 then
      ({ c1 with x := c1.x - env.rc * c1.radius * (1/10),
                 y := c1.y - env.rs * c1.radius * (1/10) },
       { c2 with x := c2.x + env.rc * c2.radius * (1/10),
                 y := c2.y + env.rs * c2.radius * (1/10) })
    else
      let overlap := (radiusSum - distance) / 2
      let directionX := dx / distance
      let directionY := dy / distance
      let mass1 := jsor c1.mass 1
      let mass2 := jsor c2.mass 1
      let totalMass := mass1 + mass2
      let circle1Move := mass2 / totalMass * overlap
      let circle2Move := mass1 / totalMass * overlap
      ({ c1 with x := c1.x - directionX * circle1Move,
                 y := c1.y - directionY * circle1Move },
       { c2 with x := c2.x + directionX * circle2Move,
                 y := c2.y + directionY * circle2Move })

/-- `circlesCollide` of the collision worker, `src/unnamed/part_000`
lines 331-341 (squared-distance comparison). -/
def circlesCollide (c1 c2 : Circle) : Bool :=
  let dx := c1.x - c2.x
  let dy := c1.y - c2.y
  let distanceSquared := dx * dx + dy * dy
  let radiusSum := c1.radius + c2.radius
  distanceSquared < radiusSum * radiusSum

theorem jsor_zero_right (q : ℚ) : jsor q 0 = q := by
  unfold jsor; split <;> simp_all

/-- The separation algebra of `resolveCollision`: moving the circles by
the two mass-weighted shares of `overlap = (r - dist)/2` along the unit
direction scales the centre offset by `(dist + overlap)/dist`, so the new
squared distance is `((dist + r)/2)^2`.  (`r` abbreviates the radius sum,
`m1, m2` the effective masses.) -/
theorem resolve_separation_algebra (x1 y1 x2 y2 dist m1 m2 r : ℚ)
    (hdist0 : dist ≠ 0) (hM : m1 + m2 ≠ 0)
    (hsq : dist ^ 2 = (x2 - x1) ^ 2 + (y2 - y1) ^ 2) :
    ((x2 + (x2 - x1) / dist * (m1 / (m1 + m2) * ((r - dist) / 2))) -
      (x1 - (x2 - x1) / dist * (m2 / (m1 + m2) * ((r - dist) / 2)))) ^ 2 +
    ((y2 + (y2 - y1) / dist * (m1 / (m1 + m2) * ((r - dist) / 2))) -
      (y1 - (y2 - y1) / dist * (m2 / (m1 + m2) * ((r - dist) / 2)))) ^ 2 =
    ((dist + r) / 2) ^ 2 := by
  have e1 : (x2 + (x2 - x1) / dist * (m1 / (m1 + m2) * ((r - dist) / 2))) -
      (x1 - (x2 - x1) / dist * (m2 / (m1 + m2) * ((r - dist) / 2)))
      = (x2 - x1) * ((dist + (r - dist) / 2) / dist) := by
    field_simp
    ring
  have e2 : (y2 + (y2 - y1) / dist * (m1 / (m1 + m2) * ((r - dist) / 2))) -
      (y1 - (y2 - y1) / dist * (m2 / (m1 + m2) * ((r - dist) / 2)))
      = (y2 - y1) * ((dist + (r - dist) / 2) / dist) := by
    field_simp
    ring
  rw [e1, e2]
  have e3 : ((x2 - x1) * ((dist + (r - dist) / 2) / dist)) ^ 2 +
      ((y2 - y1) * ((dist + (r - dist) / 2) / dist)) ^ 2
      = ((x2 - x1) ^ 2 + (y2 - y1) ^ 2) * ((dist + (r - dist) / 2) / dist) ^ 2 := by
    ring
  rw [e3, ← hsq]
  field_simp
  ring

/-- C1, counterexample. Circles of radius 15 with centre distance 20
(overlap 10, equal masses): `resolveCollision` moves them to centre
distance 25, not `radiusA + radiusB = 30`; the squared distance is 625,
not 900. -/
theorem resolveCollision_not_full_separation :
    IsSqrtOf 20 ((20 - 0) ^ 2 + (0 - 0) ^ 2) ∧ (0:ℚ) < 20 ∧ (20:ℚ) < 15 + 15 ∧
    resolveCollision ⟨0, 0, 15, 1⟩ ⟨20, 0, 15, 1⟩ 20 =
      some (⟨-(5/2), 0, 15, 1⟩, ⟨45/2, 0, 15, 1⟩) ∧
    (45/2 - -(5/2) : ℚ) ^ 2 + ((0:ℚ) - 0) ^ 2 = 625 ∧ (625 : ℚ) ≠ (15 + 15) ^ 2 := by
  refine ⟨⟨by norm_num, by norm_num⟩, by norm_num, by norm_num, ?_, by norm_num, by norm_num⟩
  norm_num [resolveCollision, jsdiv, jsor]

/-- C1, amended. For overlapping circles at positive centre distance
`dist < rA + rB` (with positive effective masses), `resolveCollision`
closes only half of the gap: the new squared centre distance is
`((dist + rA + rB)/2)²`, not `(rA + rB)²`; and when `dist ≥ rA + rB` the
call is a no-op. -/
theorem resolveCollision_halves_overlap (c1 c2 : Circle) (dist : ℚ)
    (hd : IsSqrtOf dist ((c2.x - c1.x) ^ 2 + (c2.y - c1.y) ^ 2))
    (hm1 : 0 < jsor c1.mass 1) (hm2 : 0 < jsor c2.mass 1) :
    (0 < dist → dist < c1.radius + c2.radius →
      ∃ d1 d2, resolveCollision c1 c2 dist = some (d1, d2) ∧
        (d2.x - d1.x) ^ 2 + (d2.y - d1.y) ^ 2 =
          ((dist + (c1.radius + c2.radius)) / 2) ^ 2 ∧
        d1.radius = c1.radius ∧ d2.radius = c2.radius) ∧
    (c1.radius + c2.radius ≤ dist → resolveCollision c1 c2 dist = some (c1, c2)) := by
  constructor
  · intro hpos hlt
    have hdist0 : dist ≠ 0 := ne_of_gt hpos
    have hmass : jsor c1.mass 1 + jsor c2.mass 1 ≠ 0 := by positivity
    have hres : resolveCollision c1 c2 dist = some
        ({ c1 with
            x := c1.x - (c2.x - c1.x) / dist *
              (jsor c2.mass 1 / (jsor c1.mass 1 + jsor c2.mass 1) *
                ((c1.radius + c2.radius - dist) / 2)),
            y := c1.y - (c2.y - c1.y) / dist *
              (jsor c2.mass 1 / (jsor c1.mass 1 + jsor c2.mass 1) *
                ((c1.radius + c2.radius - dist) / 2)) },
         { c2 with
            x := c2.x + (c2.x - c1.x) / dist *
              (jsor c1.mass 1 / (jsor c1.mass 1 + jsor c2.mass 1) *
                ((c1.radius + c2.radius - dist) / 2)),
            y := c2.y + (c2.y - c1.y) / dist *
              (jsor c1.mass 1 / (jsor c1.mass 1 + jsor c2.mass 1) *
                ((c1.radius + c2.radius - dist) / 2)) }) := by
      unfold resolveCollision
      rw [if_neg (by linarith)]
      simp only [jsdiv, if_neg hdist0, if_neg hmass]
    refine ⟨_, _, hres, ?_, rfl, rfl⟩
    simp only
    exact resolve_separation_algebra c1.x c1.y c2.x c2.y dist
      (jsor c1.mass 1) (jsor c2.mass 1) (c1.radius + c2.radius) hdist0 hmass hd.2
  · intro hge
    unfold resolveCollision
    rw [if_pos hge]

/-- Witness for `resolveCollision_halves_overlap` at the concrete pair of
the counterexample: the separated squared distance is `((20+30)/2)² = 625`. -/
theorem resolveCollision_halves_overlap_witness :
    ∃ d1 d2, resolveCollision ⟨0, 0, 15, 1⟩ ⟨20, 0, 15, 1⟩ 20 = some (d1, d2) ∧
      (d2.x - d1.x) ^ 2 + (d2.y - d1.y) ^ 2 =
        ((20 + ((15:ℚ) + 15)) / 2) ^ 2 ∧
      d1.radius = (⟨0, 0, 15, 1⟩ : Circle).radius ∧
      d2.radius = (⟨20, 0, 15, 1⟩ : Circle).radius := by
  have h := (resolveCollision_halves_overlap ⟨0, 0, 15, 1⟩ ⟨20, 0, 15, 1⟩ 20
      ⟨by norm_num, by norm_num⟩ (by norm_num [jsor]) (by norm_num [jsor])).1
      (by norm_num) (by norm_num)
  exact h

/-- C6, counterexample. The utility-file `resolveCollision`
(`src/unnamed/part_001`, one of the two cited implementations) has no
`distance == 0` branch: with coinciding centres it computes `0/0`, so both
circles' coordinates become NaN (modelled by `none`) instead of being
displaced by a fraction of their radius. -/
theorem resolveCollision_coincident_nan :
    IsSqrtOf 0 (((0:ℚ) - 0) ^ 2 + ((0:ℚ) - 0) ^ 2) ∧
    resolveCollision ⟨0, 0, 15, 1⟩ ⟨0, 0, 15, 1⟩ 0 = none := by
  refine ⟨⟨le_refl 0, by norm_num⟩, ?_⟩
  norm_num [resolveCollision, jsdiv]

/-- C6, amended. The worker's `resolveCollision`
(`src/unnamed/part_000` lines 348-394) does handle coinciding centres:
both circles are displaced by exactly one tenth of their own radius along
the drawn unit direction `(rc, rs)`, and the resulting coordinates are
always finite rationals (the branch performs no division, so no NaN can
arise).  `hs0` records that `Math.sqrt 0 = 0`. -/
theorem resolveCollisionW_coincident_nudges (env : Env) (c1 c2 : Circle)
    (hx : c1.x = c2.x) (hy : c1.y = c2.y)
    (hr1 : 0 < c1.radius) (hr2 : 0 < c2.radius)
    (hs0 : env.sqrtFn 0 = 0)
    (hunit : env.rc ^ 2 + env.rs ^ 2 = 1) :
    (resolveCollisionW env c1 c2).1.x = c1.x - env.rc * c1.radius * (1/10) ∧
    (resolveCollisionW env c1 c2).1.y = c1.y - env.rs * c1.radius * (1/10) ∧
    (resolveCollisionW env c1 c2).2.x = c2.x + env.rc * c2.radius * (1/10) ∧
    (resolveCollisionW env c1 c2).2.y = c2.y + env.rs * c2.radius * (1/10) ∧
    ((resolveCollisionW env c1 c2).1.x - c1.x) ^ 2 +
      ((resolveCollisionW env c1 c2).1.y - c1.y) ^ 2 = (c1.radius / 10) ^ 2 ∧
    ((resolveCollisionW env c1 c2).2.x - c2.x) ^ 2 +
      ((resolveCollisionW env c1 c2).2.y - c2.y) ^ 2 = (c2.radius / 10) ^ 2 := by
  have hdx : c2.x - c1.x = 0 := by rw [hx]; ring
  have hdy : c2.y - c1.y = 0 := by rw [hy]; ring
  have hne : ¬((c1.radius + c2.radius) * (c1.radius + c2.radius) ≤
      (c2.x - c1.x) * (c2.x - c1.x) + (c2.y - c1.y) * (c2.y - c1.y)) := by
    rw [hdx, hdy]; nlinarith
  have hres : resolveCollisionW env c1 c2 =
      ({ c1 with x := c1.x - env.rc * c1.radius * (1/10),
                 y := c1.y - env.rs * c1.radius * (1/10) },
       { c2 with x := c2.x + env.rc * c2.radius * (1/10),
                 y := c2.y + env.rs * c2.radius * (1/10) }) := by
    unfold resolveCollisionW
    rw [if_neg hne]
    rw [hdx, hdy]
    norm_num [hs0]
  rw [hres]
  refine ⟨rfl, rfl, rfl, rfl, ?_, ?_⟩
  · simp only
    linear_combination (c1.radius ^ 2 / 100) * hunit
  · simp only
    linear_combination (c2.radius ^ 2 / 100) * hunit

/-- Witness for `resolveCollisionW_coincident_nudges`: two radius-15
circles at the origin, random angle 0 (`cos = 1`, `sin = 0`); each is
displaced by exactly `15/10` and the positions stay finite. -/
theorem resolveCollisionW_coincident_nudges_witness :
    ((resolveCollisionW ⟨fun _ => 0, 1, 0⟩ ⟨0, 0, 15, 1⟩ ⟨0, 0, 15, 1⟩).1.x - 0) ^ 2 +
      ((resolveCollisionW ⟨fun _ => 0, 1, 0⟩ ⟨0, 0, 15, 1⟩ ⟨0, 0, 15, 1⟩).1.y - 0) ^ 2 =
      ((15:ℚ) / 10) ^ 2 ∧
    ((resolveCollisionW ⟨fun _ => 0, 1, 0⟩ ⟨0, 0, 15, 1⟩ ⟨0, 0, 15, 1⟩).2.x - 0) ^ 2 +
      ((resolveCollisionW ⟨fun _ => 0, 1, 0⟩ ⟨0, 0, 15, 1⟩ ⟨0, 0, 15, 1⟩).2.y - 0) ^ 2 =
      ((15:ℚ) / 10) ^ 2 := by
  have h := resolveCollisionW_coincident_nudges ⟨fun _ => 0, 1, 0⟩
      ⟨0, 0, 15, 1⟩ ⟨0, 0, 15, 1⟩ rfl rfl (by norm_num) (by norm_num) rfl (by norm_num)
  exact ⟨h.2.2.2.2.1, h.2.2.2.2.2⟩


/-! ## Monster spawner (`src/js/monster.js`, class `MonsterSpawner`) -/

/-- The fields of `MonsterSpawner` relevant to spawning and difficulty
(`src/js/monster.js` lines 95-117).  Timers are in milliseconds.
`spawnRate` is set once in the constructor
(`maxTotalMonsters / (targetSpawnTime / 1000)`); `spawnComplete` mirrors
the source flag (`spawnDuration` is a wall-clock reading, not modelled). -/
structure SpawnerState where
  spawnInterval : ℚ
  spawnTimer : ℚ
  difficultyTimer : ℚ
  difficultyInterval : ℚ
  difficulty : ℕ
  maxMonstersOnScreen : ℕ
  spawnBatchSize : ℕ
  totalMonstersSpawned : ℕ
  maxTotalMonsters : ℕ
  spawnRate : ℚ
  spawnComplete : Bool
deriving Repr, DecidableEq

/-- The constructor values of `MonsterSpawner` (`src/js/monster.js`
lines 96-117): interval 50 ms, difficulty every 1000 ms, cap 500 on
screen, batch 50, lifetime total 500, rate `500 / 10 = 50` per second. -/
def initialSpawner : SpawnerState :=
  { spawnInterval := 50
    spawnTimer := 0
    difficultyTimer := 0
    difficultyInterval := 1000
    difficulty := 1
    maxMonstersOnScreen := 500
    spawnBatchSize := 50
    totalMonstersSpawned := 0
    maxTotalMonsters := 500
    spawnRate := 50
    spawnComplete := false }

/-- `MonsterSpawner.increaseDifficulty` (`src/js/monster.js` lines 198-203):
`spawnInterval = max(50, spawnInterval - 10)`,
`spawnBatchSize = min(50, spawnBatchSize + 5)`,
`maxMonstersOnScreen = min(300, maxMonstersOnScreen + 20)`. -/
def increaseDifficulty (s : SpawnerState) : SpawnerState :=
  { s with difficulty := s.difficulty + 1
           spawnInterval := max 50 (s.spawnInterval - 10)
           spawnBatchSize := min 50 (s.spawnBatchSize + 5)
           maxMonstersOnScreen := min 300 (s.maxMonstersOnScreen + 20) }

/-- The batch size actually spawned in one spawn event
(`src/js/monster.js` lines 132, 140-145):
`Math.min(spawnBatchSize, maxTotal - total, cap - monsters.length,
Math.ceil(spawnRate * deltaTime))`; the `for` loop over a negative value
runs zero times, hence `Int.toNat`. -/
def spawnBatch (s : SpawnerState) (dt : ℚ) (count : ℕ) : ℕ :=
  (min (min (s.spawnBatchSize : ℤ)
            ((s.maxTotalMonsters : ℤ) - (s.totalMonstersSpawned : ℤ)))
       (min ((s.maxMonstersOnScreen : ℤ) - (count : ℤ))
            ⌈s.spawnRate * dt⌉)).toNat

/-- The spawning half of `MonsterSpawner.update`
(`src/js/monster.js` lines 134-155): guarded by the on-screen cap, the
spawn timer accumulates `deltaTime * 1000` and fires a batch when it
reaches `spawnInterval`, then resets to 0. -/
def spawnPhase (s : SpawnerState) (dt : ℚ) (count : ℕ) : SpawnerState × ℕ :=
  if count < s.maxMonstersOnScreen then
    if s.spawnInterval ≤ s.spawnTimer + dt * 1000 then
      ({ s with spawnTimer := 0,
                totalMonstersSpawned := s.totalMonstersSpawned + spawnBatch s dt count },
       count + spawnBatch s dt count)
    else ({ s with spawnTimer := s.spawnTimer + dt * 1000 }, count)
  else (s, count)

/-- The difficulty half of `MonsterSpawner.update`
(`src/js/monster.js` lines 157-162): the difficulty timer accumulates
`deltaTime * 1000` and triggers `increaseDifficulty` when it reaches
`difficultyInterval`, then resets to 0. -/
def difficultyPhase (s : SpawnerState) (dt : ℚ) : SpawnerState :=
  if s.difficultyInterval ≤ s.difficultyTimer + dt * 1000 then
    { increaseDifficulty s with difficultyTimer := 0 }
  else { s with difficultyTimer := s.difficultyTimer + dt * 1000 }

/-- `MonsterSpawner.update(deltaTime, monsters)` (`src/js/monster.js`
lines 119-163).  `count` is `monsters.length`; the spawned monsters'
attributes are irrelevant to the claims, so the list is tracked by its
length.  Once the lifetime total is reached the method returns early
(recording `spawnComplete`), skipping both phases. -/
def spawnerUpdate (s : SpawnerState) (dt : ℚ) (count : ℕ) : SpawnerState × ℕ :=
  if s.maxTotalMonsters ≤ s.totalMonstersSpawned then
    (if s.spawnComplete then (s, count) else ({ s with spawnComplete := true }, count))
  else
    (difficultyPhase (spawnPhase s dt count).1 dt, (spawnPhase s dt count).2)

/-- Reachable spawner states: the constructor state with an empty monster
list, advanced by `update` calls with non-negative frame times
(frame deltas come from a monotone clock). -/
inductive SpawnerReach : SpawnerState × ℕ → Prop
  | init : SpawnerReach (initialSpawner, 0)
  | step {p : SpawnerState × ℕ} (dt : ℚ) (hdt : 0 ≤ dt) (h : SpawnerReach p) :
      SpawnerReach (spawnerUpdate p.1 dt p.2)

/-- C8, failing run. On the spawner's initial state (on-screen cap 500,
per the constructor comment "Allow even more monsters on screen"),
`increaseDifficulty` sets the cap to `min(300, 520) = 300`: the very
first difficulty increase *lowers* the on-screen cap by 200, although
the code's own comment says "Allow more monsters on screen".  The other
two parameters do saturate as claimed (interval stays at its 50 floor,
batch size at its 50 ceiling). -/
theorem increaseDifficulty_lowers_cap :
    initialSpawner.maxMonstersOnScreen = 500 ∧
    (increaseDifficulty initialSpawner).maxMonstersOnScreen = 300 ∧
    (increaseDifficulty initialSpawner).maxMonstersOnScreen <
      initialSpawner.maxMonstersOnScreen ∧
    (increaseDifficulty initialSpawner).spawnInterval = 50 ∧
    (increaseDifficulty initialSpawner).spawnBatchSize = 50 := by
  refine ⟨rfl, rfl, ?_, ?_, rfl⟩
  · norm_num [increaseDifficulty, initialSpawner]
  · norm_num [increaseDifficulty, initialSpawner]

/-- The inductive invariant behind the spawner caps.  While the
difficulty is still 1 the cap is 500 and the on-screen count is bounded
through the potential `7 * difficultyTimer / 100 - spawnTimer / 20`, so
it stays below 70; hence at the first difficulty increase (when the cap
drops to 300) at most `70 + 50 < 300` monsters are on screen. -/
def SpawnerInv (p : SpawnerState × ℕ) : Prop :=
  p.1.maxTotalMonsters = 500 ∧ p.1.spawnRate = 50 ∧
  p.1.difficultyInterval = 1000 ∧ p.1.spawnBatchSize = 50 ∧
  p.1.spawnInterval = 50 ∧ 1 ≤ p.1.difficulty ∧
  0 ≤ p.1.spawnTimer ∧ 0 ≤ p.1.difficultyTimer ∧
  p.1.totalMonstersSpawned ≤ 500 ∧ p.2 ≤ p.1.totalMonstersSpawned ∧
  (p.1.difficulty = 1 → p.1.maxMonstersOnScreen = 500 ∧
    p.1.difficultyTimer < 1000 ∧
    (p.2 : ℚ) + p.1.spawnTimer / 20 ≤ 7 * p.1.difficultyTimer / 100) ∧
  (p.1.difficulty ≠ 1 → p.1.maxMonstersOnScreen = 300) ∧
  p.2 ≤ p.1.maxMonstersOnScreen

theorem spawnerInv_init : SpawnerInv (initialSpawner, 0) := by
  unfold SpawnerInv initialSpawner
  norm_num

theorem spawnerInv_step (s : SpawnerState) (c : ℕ) (dt : ℚ) (hdt : 0 ≤ dt)
    (h : SpawnerInv (s, c)) : SpawnerInv (spawnerUpdate s dt c) := by
  obtain ⟨hTot, hRate, hDI, hBS, hSI, hd1le, hST, hDT, htot, hcl, h1, h2, hcap⟩ := h
  simp only at hTot hRate hDI hBS hSI hd1le hST hDT htot hcl h1 h2 hcap
  unfold spawnerUpdate
  by_cases hfull : s.maxTotalMonsters ≤ s.totalMonstersSpawned
  · rw [if_pos hfull]
    by_cases hsc : s.spawnComplete
    · rw [if_pos hsc]
      exact ⟨hTot, hRate, hDI, hBS, hSI, hd1le, hST, hDT, htot, hcl, h1, h2, hcap⟩
    · rw [if_neg hsc]
      exact ⟨hTot, hRate, hDI, hBS, hSI, hd1le, hST, hDT, htot, hcl, h1, h2, hcap⟩
  · rw [if_neg hfull]
    have hD0 : 0 ≤ dt * 1000 := by positivity
    -- facts about the spawn phase output (s1, c1)
    obtain ⟨s1, c1, hP⟩ : ∃ s1 c1, spawnPhase s dt c = (s1, c1) := ⟨_, _, rfl⟩
    have hfacts :
        s1.maxTotalMonsters = s.maxTotalMonsters ∧ s1.spawnRate = s.spawnRate ∧
        s1.difficultyInterval = s.difficultyInterval ∧
        s1.spawnBatchSize = s.spawnBatchSize ∧ s1.spawnInterval = s.spawnInterval ∧
        s1.difficulty = s.difficulty ∧
        s1.maxMonstersOnScreen = s.maxMonstersOnScreen ∧
        s1.difficultyTimer = s.difficultyTimer ∧
        0 ≤ s1.spawnTimer ∧ s1.totalMonstersSpawned ≤ 500 ∧
        c1 ≤ s1.totalMonstersSpawned ∧ c1 ≤ s.maxMonstersOnScreen ∧
        (s.difficulty = 1 →
          (c1 : ℚ) + s1.spawnTimer / 20 ≤
            7 * (s.difficultyTimer + dt * 1000) / 100 ∧ c1 ≤ 120) := by
      unfold spawnPhase at hP
      by_cases hroom : c < s.maxMonstersOnScreen
      · by_cases hfire : s.spawnInterval ≤ s.spawnTimer + dt * 1000
        · rw [if_pos hroom, if_pos hfire] at hP
          injection hP with hs1 hc1
          subst hs1
          set b := spawnBatch s dt c with hbdef
          have hb50 : b ≤ 50 := by
            have h1' : (min (min (s.spawnBatchSize : ℤ)
                ((s.maxTotalMonsters : ℤ) - (s.totalMonstersSpawned : ℤ)))
                (min ((s.maxMonstersOnScreen : ℤ) - (c : ℤ)) ⌈s.spawnRate * dt⌉)) ≤
                (s.spawnBatchSize : ℤ) :=
              le_trans (min_le_left _ _) (min_le_left _ _)
            rw [hBS] at h1'
            unfold spawnBatch at hbdef
            omega
          have hbtot : s.totalMonstersSpawned + b ≤ 500 := by
            have h1' : (min (min (s.spawnBatchSize : ℤ)
                ((s.maxTotalMonsters : ℤ) - (s.totalMonstersSpawned : ℤ)))
                (min ((s.maxMonstersOnScreen : ℤ) - (c : ℤ)) ⌈s.spawnRate * dt⌉)) ≤
                (s.maxTotalMonsters : ℤ) - (s.totalMonstersSpawned : ℤ) :=
              le_trans (min_le_left _ _) (min_le_right _ _)
            rw [hTot] at h1'
            unfold spawnBatch at hbdef
            omega
          have hbroom : c + b ≤ s.maxMonstersOnScreen := by
            have h1' : (min (min (s.spawnBatchSize : ℤ)
                ((s.maxTotalMonsters : ℤ) - (s.totalMonstersSpawned : ℤ)))
                (min ((s.maxMonstersOnScreen : ℤ) - (c : ℤ)) ⌈s.spawnRate * dt⌉)) ≤
                (s.maxMonstersOnScreen : ℤ) - (c : ℤ) :=
              le_trans (min_le_right _ _) (min_le_left _ _)
            unfold spawnBatch at hbdef
            omega
          have hbceil : (b : ℚ) ≤ s.spawnRate * dt + 1 := by
            have hc0 : (0:ℤ) ≤ ⌈s.spawnRate * dt⌉ := by
              refine Int.ceil_nonneg ?_
              rw [hRate]
              positivity
            have h1' : (min (min (s.spawnBatchSize : ℤ)
                ((s.maxTotalMonsters : ℤ) - (s.totalMonstersSpawned : ℤ)))
                (min ((s.maxMonstersOnScreen : ℤ) - (c : ℤ)) ⌈s.spawnRate * dt⌉)) ≤
                ⌈s.spawnRate * dt⌉ :=
              le_trans (min_le_right _ _) (min_le_right _ _)
            have h2' : (b : ℤ) ≤ ⌈s.spawnRate * dt⌉ := by
              unfold spawnBatch at hbdef
              omega
            have h3' : ((⌈s.spawnRate * dt⌉ : ℤ) : ℚ) < s.spawnRate * dt + 1 :=
              Int.ceil_lt_add_one _
            have h4' : ((b : ℤ) : ℚ) ≤ ((⌈s.spawnRate * dt⌉ : ℤ) : ℚ) := by
              exact_mod_cast h2'
            push_cast at h4' ⊢
            linarith
          rw [← hc1]
          refine ⟨rfl, rfl, rfl, rfl, rfl, rfl, rfl, rfl, le_refl 0, hbtot, ?_, hbroom, ?_⟩
          · show c + b ≤ s.totalMonstersSpawned + b
            omega
          intro hdd
          obtain ⟨hcap500, hdtlt, hpot⟩ := h1 hdd
          constructor
          · have hfire' : (50:ℚ) ≤ s.spawnTimer + dt * 1000 := by
              rw [hSI] at hfire
              linarith
            have hbq : (b : ℚ) ≤ 50 * dt + 1 := by
              rw [hRate] at hbceil
              linarith
            show ((c + b : ℕ) : ℚ) + (0:ℚ) / 20 ≤
              7 * (s.difficultyTimer + dt * 1000) / 100
            push_cast
            linarith
          · have hcb : (c : ℚ) ≤ 70 := by
              have h20 : 0 ≤ s.spawnTimer / 20 := by positivity
              nlinarith
            have hcb' : c ≤ 70 := by exact_mod_cast hcb
            omega
        · rw [if_pos hroom, if_neg hfire] at hP
          injection hP with hs1 hc1
          subst hs1
          rw [← hc1]
          refine ⟨rfl, rfl, rfl, rfl, rfl, rfl, rfl, rfl, by positivity, htot, hcl, hcap, ?_⟩
          intro hdd
          obtain ⟨hcap500, hdtlt, hpot⟩ := h1 hdd
          constructor
          · show (c:ℚ) + (s.spawnTimer + dt * 1000) / 20 ≤
              7 * (s.difficultyTimer + dt * 1000) / 100
            linarith
          · have hcb : (c : ℚ) ≤ 70 := by
              have h20 : 0 ≤ s.spawnTimer / 20 := by positivity
              nlinarith
            have hcb' : c ≤ 70 := by exact_mod_cast hcb
            omega
      · rw [if_neg hroom] at hP
        injection hP with hs1 hc1
        subst hs1
        rw [← hc1]
        refine ⟨rfl, rfl, rfl, rfl, rfl, rfl, rfl, rfl, hST, htot, hcl, hcap, ?_⟩
        intro hdd
        obtain ⟨hcap500, hdtlt, hpot⟩ := h1 hdd
        constructor
        · linarith
        · have hcb : (c : ℚ) ≤ 70 := by
            have h20 : 0 ≤ s.spawnTimer / 20 := by positivity
            nlinarith
          have hcb' : c ≤ 70 := by exact_mod_cast hcb
          omega
    rw [hP]
    obtain ⟨f1, f2, f3, f4, f5, f6, f7, f8, f9, f10, f11, f12, f13⟩ := hfacts
    -- the difficulty phase
    unfold difficultyPhase
    by_cases htrig : s1.difficultyInterval ≤ s1.difficultyTimer + dt * 1000
    · rw [if_pos htrig]
      refine ⟨?_, ?_, ?_, ?_, ?_, ?_, ?_, le_refl 0, ?_, ?_, ?_, ?_, ?_⟩
      · simp only [increaseDifficulty]; rw [f1, hTot]
      · simp only [increaseDifficulty]; rw [f2, hRate]
      · simp only [increaseDifficulty]; rw [f3, hDI]
      · simp only [increaseDifficulty]; rw [f4, hBS]; decide
      · simp only [increaseDifficulty]; rw [f5, hSI]; norm_num
      · simp only [increaseDifficulty]; omega
      · simp only [increaseDifficulty]; exact f9
      · simp only [increaseDifficulty]; exact f10
      · simp only [increaseDifficulty]; exact f11
      · intro hbad
        exfalso
        simp only [increaseDifficulty] at hbad
        omega
      · intro _
        simp only [increaseDifficulty]
        by_cases hdd : s.difficulty = 1
        · rw [f7, (h1 hdd).1]; decide
        · rw [f7, h2 hdd]; decide
      · simp only [increaseDifficulty]
        by_cases hdd : s.difficulty = 1
        · have h120 : c1 ≤ 120 := (f13 hdd).2
          rw [f7, (h1 hdd).1]
          omega
        · have hf : c1 ≤ 300 := by rw [h2 hdd] at f12; exact f12
          rw [f7, h2 hdd]
          omega
    · rw [if_neg htrig]
      refine ⟨?_, ?_, ?_, ?_, ?_, ?_, ?_, ?_, ?_, ?_, ?_, ?_, ?_⟩
      · simp only; rw [f1, hTot]
      · simp only; rw [f2, hRate]
      · simp only; rw [f3, hDI]
      · simp only; rw [f4, hBS]
      · simp only; rw [f5, hSI]
      · simp only; rw [f6]; exact hd1le
      · simp only; exact f9
      · simp only; rw [f8]; positivity
      · simp only; exact f10
      · simp only; exact f11
      · intro hdd
        simp only at hdd ⊢
        rw [f6] at hdd
        rw [f3, hDI] at htrig
        rw [f8] at htrig ⊢
        refine ⟨by rw [f7]; exact (h1 hdd).1, by linarith [not_le.mp htrig], ?_⟩
        exact (f13 hdd).1
      · intro hdd
        simp only at hdd ⊢
        rw [f6] at hdd
        rw [f7]
        exact h2 hdd
      · simp only
        rw [f7]
        exact f12

theorem spawnerInv_reach (p : SpawnerState × ℕ) (h : SpawnerReach p) : SpawnerInv p := by
  induction h with
  | init => exact spawnerInv_init
  | step dt hdt h ih => exact spawnerInv_step _ _ dt hdt ih

/-- C9. In every reachable spawner state — including across difficulty
increases that change `maxMonstersOnScreen` — the number of on-screen
monsters is at most `maxMonstersOnScreen`, and the cumulative spawn count
is at most `maxTotalMonsters`. -/
theorem spawner_caps_invariant (p : SpawnerState × ℕ) (h : SpawnerReach p) :
    p.2 ≤ p.1.maxMonstersOnScreen ∧
    p.1.totalMonstersSpawned ≤ p.1.maxTotalMonsters := by
  obtain ⟨hTot, -, -, -, -, -, -, -, htot, -, -, -, hcap⟩ := spawnerInv_reach p h
  exact ⟨hcap, by rw [hTot]; exact htot⟩

/-- Witness for `spawner_caps_invariant`: one `update` with `dt = 1 s`
spawns a 50-monster batch and crosses the first difficulty increase
(cap 500 → 300); both cap inequalities hold in the resulting state. -/
theorem spawner_caps_invariant_witness :
    (spawnerUpdate initialSpawner 1 0).2 ≤
      (spawnerUpdate initialSpawner 1 0).1.maxMonstersOnScreen ∧
    (spawnerUpdate initialSpawner 1 0).1.totalMonstersSpawned ≤
      (spawnerUpdate initialSpawner 1 0).1.maxTotalMonsters := by
  exact spawner_caps_invariant _
    (SpawnerReach.step 1 (by norm_num) SpawnerReach.init)

/-! ## Offload coordinator busy-flag protocol
(`src/unnamed/part_003`, `updateWorkerGame` lines 1246-1307 and
`handleWorkerMessage` lines 1328-1356) -/

/-- Coordinator state: the `workerGameState.workerBusy` flag, plus the
ghost count `inFlight` of requests sent to the worker and not yet
answered (the claim's "outstanding requests"; the source has no such
variable — it is the quantity the claim bounds). -/
structure CoordState where
  workerBusy : Bool
  inFlight : ℕ
deriving Repr, DecidableEq

/-- Events at the coordinator: a simulation tick reaching the send site,
and the two reply kinds the collision worker can emit
(`src/unnamed/part_000` lines 8-47: every received message produces
exactly one `collisionResults` or one `error` reply). -/
inductive CoordEvent
  | tick
  | resultMsg
  | errorMsg
deriving Repr, DecidableEq

/-- One coordinator step.  Returns the new state, whether a request was
serialized-and-sent in this step, and whether a merge
(`applyCollisionResults`) was performed.  Mirrors the send guard of
`updateWorkerGame` (send only if `!workerBusy`, then set the flag) and
`handleWorkerMessage` (merge then clear on `collisionResults`; clear
without merging on `error`). -/
def coordStep (s : CoordState) (e : CoordEvent) : CoordState × Bool × Bool :=
  match e with
  | .tick =>
    if s.workerBusy then (s, false, false)
    else ({ workerBusy := true, inFlight := s.inFlight + 1 }, true, false)
  | .resultMsg => ({ workerBusy := false, inFlight := s.inFlight - 1 }, false, true)
  | .errorMsg => ({ workerBusy := false, inFlight := s.inFlight - 1 }, false, false)

/-- Reachable coordinator states: `workerBusy` starts `false`
(`initWorkerGame`, `src/unnamed/part_003` line 1076); ticks are always
possible; a reply can arrive only while a request is in flight (the
worker only speaks when spoken to). -/
inductive CoordReach : CoordState → Prop
  | init : CoordReach ⟨false, 0⟩
  | tick {s : CoordState} (h : CoordReach s) : CoordReach (coordStep s .tick).1
  | reply {s : CoordState} (e : CoordEvent) (h : CoordReach s)
      (hin : 0 < s.inFlight) (he : e = .resultMsg ∨ e = .errorMsg) :
      CoordReach (coordStep s e).1

/-- The busy flag tracks the in-flight count exactly. -/
theorem coordReach_busy_inFlight (s : CoordState) (h : CoordReach s) :
    s.inFlight ≤ 1 ∧ (s.workerBusy = true ↔ s.inFlight = 1) := by
  induction h with
  | init => simp
  | @tick s h ih =>
    obtain ⟨hle, hiff⟩ := ih
    unfold coordStep
    by_cases hb : s.workerBusy
    · rw [if_pos hb]
      exact ⟨hle, hiff⟩
    · rw [if_neg hb]
      have h0 : s.inFlight = 0 := by
        rcases Nat.lt_or_ge s.inFlight 1 with h' | h'
        · omega
        · have : s.inFlight = 1 := by omega
          rw [← hiff] at this
          exact absurd this hb
      simp [h0]
  | @reply s e h hin he ih =>
    obtain ⟨hle, hiff⟩ := ih
    rcases he with he | he <;> subst he <;>
      · unfold coordStep
        simp
        omega

/-- C3. The coordinator keeps at most one collision request outstanding:
in every reachable state `inFlight ≤ 1` and the busy flag is set exactly
while one request is in flight; a tick sends a snapshot (and sets the
flag) precisely when the flag is clear, a tick that arrives while the
flag is set changes nothing and sends nothing, and the flag is cleared
exactly by the two reply kinds — `collisionResults` (which merges) and
`error` (which clears without merging). -/
theorem coordinator_single_flight (s : CoordState) (h : CoordReach s) :
    s.inFlight ≤ 1 ∧ (s.workerBusy = true ↔ s.inFlight = 1) ∧
    (s.workerBusy = true → (coordStep s .tick).1 = s ∧
      (coordStep s .tick).2.1 = false) ∧
    (s.workerBusy = false → (coordStep s .tick).2.1 = true ∧
      (coordStep s .tick).1.workerBusy = true) ∧
    ((coordStep s .resultMsg).1.workerBusy = false ∧
      (coordStep s .resultMsg).2.2 = true) ∧
    ((coordStep s .errorMsg).1.workerBusy = false ∧
      (coordStep s .errorMsg).2.2 = false) := by
  obtain ⟨hle, hiff⟩ := coordReach_busy_inFlight s h
  refine ⟨hle, hiff, ?_, ?_, ⟨rfl, rfl⟩, ⟨rfl, rfl⟩⟩
  · intro hb
    unfold coordStep
    rw [if_pos hb]
    exact ⟨rfl, rfl⟩
  · intro hb
    unfold coordStep
    rw [if_neg (by rw [hb]; exact Bool.false_ne_true)]
    exact ⟨rfl, rfl⟩

/-- Witness for `coordinator_single_flight` at the state reached by one
tick from the initial state (busy, one request in flight). -/
theorem coordinator_single_flight_witness :
    ((coordStep ⟨false, 0⟩ .tick).1.inFlight ≤ 1 ∧
      ((coordStep ⟨false, 0⟩ .tick).1.workerBusy = true ↔
        (coordStep ⟨false, 0⟩ .tick).1.inFlight = 1)) ∧
    (coordStep (coordStep ⟨false, 0⟩ .tick).1 .tick).2.1 = false := by
  have h : CoordReach (coordStep ⟨false, 0⟩ .tick).1 :=
    CoordReach.tick CoordReach.init
  obtain ⟨h1, h2, h3, -, -, -⟩ := coordinator_single_flight _ h
  exact ⟨⟨h1, h2⟩, (h3 rfl).2⟩

/-! ## Frame serializer / deserializer
encoder: `serializeGameData`, `src/unnamed/part_006` lines 253-300;
decoder: `deserializeGameData`, `src/unnamed/part_000` lines 54-101;
reduced encoder: `updateWorkerGame`, `src/unnamed/part_003` lines 1254-1306 -/

/-- A monster as the collision worker sees it (decoded fields plus the
positional id `monster-${i}`, modelled as the number `i`). -/
structure WMonster where
  x : ℚ
  y : ℚ
  radius : ℚ
  mass : ℚ
  id : ℕ
deriving Repr, DecidableEq

/-- A bullet as the collision worker sees it (decoded fields plus the
positional id `bullet-${i}`, modelled as the number `i`). -/
structure WBullet where
  x : ℚ
  y : ℚ
  radius : ℚ
  isPlayerBullet : Bool
  damage : ℚ
  currentPierceCount : ℚ
  maxPierceCount : ℚ
  id : ℕ
  isActive : Bool
deriving Repr, DecidableEq

/-- One frame's snapshot: player, monsters, bullets. -/
structure WData where
  player : Circle
  monsters : List WMonster
  bullets : List WBullet
deriving Repr, DecidableEq

/-- Iteration count of the JS loop `for (let i = 0; i < q; i++)` when the
bound `q` is a (float) number: `⌈q⌉` clamped to zero. -/
def jsLoopCount (q : ℚ) : ℕ := (⌈q⌉).toNat

/-- `serializeGameData` (`src/unnamed/part_006` lines 253-300): the
spec's wire format.  Player `x, y, radius, mass||1`; monster count; per
monster `x, y, radius, mass||1`; bullet count; per bullet `x, y, radius,
isPlayerBullet, damage, currentPierceCount, maxPierceCount, isActive`.
The buffer is sized exactly, so the value sequence is the whole buffer. -/
def serializeGameData (d : WData) : List ℚ :=
  d.player.x :: d.player.y :: d.player.radius :: jsor d.player.mass 1 ::
  (d.monsters.length : ℚ) ::
  ((d.monsters.map fun m => [m.x, m.y, m.radius, jsor m.mass 1]).flatten ++
    (d.bullets.length : ℚ) ::
    (d.bullets.map fun b =>
      [b.x, b.y, b.radius, if b.isPlayerBullet then 1 else 0,
       b.damage, b.currentPierceCount, b.maxPierceCount,
       if b.isActive then 1 else 0]).flatten)

/-- The monster-reading loop of `deserializeGameData`
(`src/unnamed/part_000` lines 70-79); `idx` numbers the `monster-${i}`
ids.  `none` means the read ran off the end of the buffer. -/
def readMonsters : ℕ → ℕ → List ℚ → Option (List WMonster × List ℚ)
  | _, 0, l => some ([], l)
  | idx, n + 1, x :: y :: r :: m :: rest =>
    match readMonsters (idx + 1) n rest with
    | some (ms, l) => some (⟨x, y, r, m, idx⟩ :: ms, l)
    | none => none
  | _, _ + 1, _ => none

/-- The bullet-reading loop of `deserializeGameData`
(`src/unnamed/part_000` lines 85-98): flags decode as `value > 0`. -/
def readBullets : ℕ → ℕ → List ℚ → Option (List WBullet × List ℚ)
  | _, 0, l => some ([], l)
  | idx, n + 1, x :: y :: r :: ipb :: dmg :: cpc :: mpc :: act :: rest =>
    match readBullets (idx + 1) n rest with
    | some (bs, l) =>
      some (⟨x, y, r, decide (0 < ipb), dmg, cpc, mpc, idx, decide (0 < act)⟩ :: bs, l)
    | none => none
  | _, _ + 1, _ => none

/-- `deserializeGameData` (`src/unnamed/part_000` lines 54-101): reads
player `x, y, radius, mass`, the monster count and records, then the
bullet count and records, in strict order. -/
def deserializeGameData (l : List ℚ) : Option WData :=
  match l with
  | px :: py :: pr :: pm :: mcnt :: rest =>
    match readMonsters 0 (jsLoopCount mcnt) rest with
    | some (ms, bcnt :: rest2) =>
      match readBullets 0 (jsLoopCount bcnt) rest2 with
      | some (bs, _) => some ⟨⟨px, py, pr, pm⟩, ms, bs⟩
      | none => none
    | _ => none
  | _ => none

/-- A monster as the main thread holds it (only the fields the reduced
serializer of `src/unnamed/part_003` reads). -/
structure MainMonsterLite where
  x : ℚ
  y : ℚ
  radius : ℚ
  isActive : Bool
deriving Repr, DecidableEq

/-- A bullet as the main thread holds it (only the fields the reduced
serializer of `src/unnamed/part_003` reads). -/
structure MainBulletLite where
  x : ℚ
  y : ℚ
  radius : ℚ
  isPlayerBullet : Bool
  currentPierceCount : ℚ
  maxPierceCount : ℚ
  isActive : Bool
deriving Repr, DecidableEq

/-- The serializer inlined in `updateWorkerGame`
(`src/unnamed/part_003` lines 1254-1306): player `x, y, radius` (no
mass); `monsters.length`; per *active* monster `x, y, radius` (no mass);
`bullets.length`; per *active* bullet `x, y, radius, isPlayerBullet,
currentPierceCount, maxPierceCount` (no damage, no isActive).  The
buffer is `max(bufferSize*4, 1024)` bytes — `max(4+3N+6M, 256)` floats —
zero-initialised; writes past the allocation are dropped by the typed
array. -/
def updateWorkerGameSerialize (player : Circle) (monsters : List MainMonsterLite)
    (bullets : List MainBulletLite) : List ℚ :=
  let writes :=
    player.x :: player.y :: player.radius ::
    (monsters.length : ℚ) ::
    (((monsters.filter (·.isActive)).map fun m => [m.x, m.y, m.radius]).flatten ++
      (bullets.length : ℚ) ::
      ((bullets.filter (·.isActive)).map fun b =>
        [b.x, b.y, b.radius, if b.isPlayerBullet then 1 else 0,
         b.currentPierceCount, b.maxPierceCount]).flatten)
  let alloc := max (4 + 3 * monsters.length + 6 * bullets.length) 256
  writes.take alloc ++ List.replicate (alloc - writes.length) 0

theorem readMonsters_roundtrip (ms : List WMonster) (idx : ℕ) (rest : List ℚ)
    (hm : ∀ m ∈ ms, m.mass ≠ 0)
    (hid : ∀ i m, ms.get? i = some m → m.id = idx + i) :
    readMonsters idx ms.length
      ((ms.map fun m => [m.x, m.y, m.radius, jsor m.mass 1]).flatten ++ rest) =
      some (ms, rest) := by
  induction ms generalizing idx with
  | nil => rfl
  | cons m tl ih =>
    obtain ⟨mx, my, mr, mm, mid⟩ := m
    have hmm : mm ≠ 0 := hm _ (List.mem_cons_self _ _)
    have hmid : mid = idx := by
      have := hid 0 ⟨mx, my, mr, mm, mid⟩ rfl
      simpa using this
    have hrec := ih (idx + 1)
      (fun m hmem => hm m (List.mem_cons_of_mem _ hmem))
      (fun i m hget => by
        have := hid (i + 1) m (by simpa using hget)
        omega)
    simp only [List.map_cons, List.flatten_cons, List.cons_append, List.length_cons,
      List.append_assoc]
    unfold readMonsters
    rw [List.nil_append, hrec]
    simp [jsor, hmm, hmid]

theorem readBullets_roundtrip (bs : List WBullet) (idx : ℕ) (rest : List ℚ)
    (hid : ∀ i b, bs.get? i = some b → b.id = idx + i) :
    readBullets idx bs.length
      ((bs.map fun b =>
        [b.x, b.y, b.radius, if b.isPlayerBullet then 1 else 0,
         b.damage, b.currentPierceCount, b.maxPierceCount,
         if b.isActive then 1 else 0]).flatten ++ rest) =
      some (bs, rest) := by
  induction bs generalizing idx with
  | nil => rfl
  | cons b tl ih =>
    obtain ⟨bx, by_, br, bipb, bdmg, bcpc, bmpc, bid, bact⟩ := b
    have hbid : bid = idx := by
      have := hid 0 ⟨bx, by_, br, bipb, bdmg, bcpc, bmpc, bid, bact⟩ rfl
      simpa using this
    have hrec := ih (idx + 1)
      (fun i b hget => by
        have := hid (i + 1) b (by simpa using hget)
        omega)
    simp only [List.map_cons, List.flatten_cons, List.cons_append, List.length_cons,
      List.append_assoc]
    unfold readBullets
    rw [List.nil_append, hrec]
    have hflag1 : decide ((0:ℚ) < if bipb then 1 else 0) = bipb := by
      cases bipb <;> norm_num
    have hflag2 : decide ((0:ℚ) < if bact then 1 else 0) = bact := by
      cases bact <;> norm_num
    rw [hflag1, hflag2, hbid]

theorem jsLoopCount_natCast (n : ℕ) : jsLoopCount (n : ℚ) = n := by
  unfold jsLoopCount
  rw [Int.ceil_natCast]
  exact Int.toNat_natCast n

/-- C2, amended. The matched wire-format pair — `serializeGameData`
(`src/unnamed/part_006`) with `deserializeGameData`
(`src/unnamed/part_000`) — round-trips every field of the spec's wire
format, for any snapshot size (0, 1, or > 100 monsters/bullets), as long
as the masses are non-zero (JS `mass || 1` turns a 0 mass into 1) and
the entity ids are the positional ids the decoder reconstructs. -/
theorem deserialize_serialize_roundtrip (d : WData)
    (hpm : d.player.mass ≠ 0)
    (hmm : ∀ m ∈ d.monsters, m.mass ≠ 0)
    (hmid : ∀ i m, d.monsters.get? i = some m → m.id = i)
    (hbid : ∀ i b, d.bullets.get? i = some b → b.id = i) :
    deserializeGameData (serializeGameData d) = some d := by
  obtain ⟨⟨px, py, pr, pm⟩, ms, bs⟩ := d
  simp only at hpm hmm hmid hbid
  unfold serializeGameData deserializeGameData
  simp only
  rw [jsLoopCount_natCast]
  rw [readMonsters_roundtrip ms 0 _ hmm (fun i m h => by simpa using hmid i m h)]
  simp only
  rw [jsLoopCount_natCast]
  have hb := readBullets_roundtrip bs 0 [] (fun i b h => by simpa using hbid i b h)
  rw [List.append_nil] at hb
  rw [hb]
  simp [jsor, hpm]

/-- Witness for `deserialize_serialize_roundtrip` on a one-monster,
one-bullet snapshot. -/
theorem deserialize_serialize_roundtrip_witness :
    deserializeGameData (serializeGameData
      ⟨⟨100, 200, 20, 50⟩, [⟨3, 4, 15, 30, 0⟩],
        [⟨7, 8, 6, true, 30, 0, 10, 0, true⟩]⟩) =
      some ⟨⟨100, 200, 20, 50⟩, [⟨3, 4, 15, 30, 0⟩],
        [⟨7, 8, 6, true, 30, 0, 10, 0, true⟩]⟩ := by
  refine deserialize_serialize_roundtrip _ (by norm_num) ?_ ?_ ?_
  · intro m hm
    simp only [List.mem_singleton] at hm
    subst hm
    norm_num
  · intro i m h
    rcases i with _ | i
    · have h' : m = ⟨3, 4, 15, 30, 0⟩ := by simpa using h.symm
      rw [h']
    · simp at h
  · intro i b h
    rcases i with _ | i
    · have h' : b = ⟨7, 8, 6, true, 30, 0, 10, 0, true⟩ := by simpa using h.symm
      rw [h']
    · simp at h

/-- C2, counterexample. Decoding a buffer produced by the *cited*
serializer — the reduced one inlined in `updateWorkerGame`
(`src/unnamed/part_003` lines 1254-1306) — with the cited decoder
`deserializeGameData` (`src/unnamed/part_000`) does not return the
original snapshot: the encoder writes no player mass (nor monster mass,
bullet damage, or bullet isActive), so the decoder reads the monster
count slot as the mass.  For a lone player of mass 7 the decoded player
mass is 0. -/
theorem serializer_decoder_mismatch :
    deserializeGameData (updateWorkerGameSerialize ⟨10, 20, 5, 7⟩ [] []) =
      some ⟨⟨10, 20, 5, 0⟩, [], []⟩ ∧
    (⟨10, 20, 5, 7⟩ : Circle).mass = 7 ∧
    ∀ w, deserializeGameData (updateWorkerGameSerialize ⟨10, 20, 5, 7⟩ [] []) =
      some w → w.player.mass ≠ (⟨10, 20, 5, 7⟩ : Circle).mass := by
  have henc : updateWorkerGameSerialize ⟨10, 20, 5, 7⟩ [] [] =
      10 :: 20 :: 5 :: 0 :: 0 :: List.replicate 251 0 := by
    unfold updateWorkerGameSerialize
    norm_num
  have hrep : (List.replicate 251 (0:ℚ)) = 0 :: List.replicate 250 0 := rfl
  have hdec : deserializeGameData (10 :: 20 :: 5 :: 0 :: 0 :: (0:ℚ) ::
      List.replicate 250 0) = some ⟨⟨10, 20, 5, 0⟩, [], []⟩ := by
    have h0 : jsLoopCount 0 = 0 := by
      unfold jsLoopCount
      norm_num
    simp only [deserializeGameData, h0, readMonsters, readBullets]
  refine ⟨?_, rfl, ?_⟩
  · rw [henc, hrep]
    exact hdec
  · intro w hw
    rw [henc, hrep, hdec] at hw
    injection hw with hw
    rw [← hw]
    norm_num


/-! ## The collision worker's `processCollisions`
(`src/unnamed/part_000` lines 157-323).

JS mutation of the shared objects is made explicit: each phase takes the
current lists and returns the updated ones; `processCollisions` also
returns the final state of the (mutated) input bullets alongside the
`results` record the source builds. -/

/-- The `{x, y, radius, mass}` view of a worker monster (the fields the
collision helpers read). -/
def WMonster.circle (m : WMonster) : Circle := ⟨m.x, m.y, m.radius, m.mass⟩

/-- The `{x, y, radius}` view of a worker bullet.  Bullets have no mass
property and are never passed to `resolveCollision`, so the mass slot is
arbitrary (0). -/
def WBullet.circle (b : WBullet) : Circle := ⟨b.x, b.y, b.radius, 0⟩

/-- Write back the position a resolution produced into a monster
(resolution moves `x` and `y` only). -/
def setMonsterPos (m : WMonster) (c : Circle) : WMonster := { m with x := c.x, y := c.y }

/-- One iteration of the Player–Monster loop (`part_000` lines 173-177):
`if (circlesCollide(player, monster)) resolveCollision(results.player,
monster)` — the test uses the snapshot player `dp`, the resolution moves
the accumulated player copy and the working monster. -/
def playerMonsterStep (env : Env) (dp : Circle) (st : Circle × List WMonster)
    (i : ℕ) : Circle × List WMonster :=
  match st.2.get? i with
  | some m =>
    if circlesCollide dp m.circle then
      let r := resolveCollisionW env st.1 m.circle
      (r.1, st.2.set i (setMonsterPos m r.2))
    else st
  | none => st

/-- The Player–Monster phase over all working monsters in order. -/
def playerMonsterPhase (env : Env) (dp : Circle) (ms : List WMonster) :
    Circle × List WMonster :=
  (List.range ms.length).foldl (playerMonsterStep env dp) (dp, ms)

/-- Grid cell of a monster's centre (`part_000` lines 187-188):
`Math.floor(x / 50), Math.floor(y / 50)`. -/
def cellOf (m : WMonster) : ℤ × ℤ := (⌊m.x / 50⌋, ⌊m.y / 50⌋)

/-- The neighbour cells a monster is also registered in
(`part_000` lines 200-229), in the source's push order: left, right,
up, down, then the four diagonals. -/
def neighborCells (m : WMonster) : List (ℤ × ℤ) :=
  let cx := ⌊m.x / 50⌋
  let cy := ⌊m.y / 50⌋
  let r := m.radius
  (if m.x - r < (cx : ℚ) * 50 then [(cx - 1, cy)] else []) ++
  (if ((cx : ℚ) + 1) * 50 ≤ m.x + r then [(cx + 1, cy)] else []) ++
  (if m.y - r < (cy : ℚ) * 50 then [(cx, cy - 1)] else []) ++
  (if ((cy : ℚ) + 1) * 50 ≤ m.y + r then [(cx, cy + 1)] else []) ++
  (if m.x - r < (cx : ℚ) * 50 ∧ m.y - r < (cy : ℚ) * 50
    then [(cx - 1, cy - 1)] else []) ++
  (if m.x - r < (cx : ℚ) * 50 ∧ ((cy : ℚ) + 1) * 50 ≤ m.y + r
    then [(cx - 1, cy + 1)] else []) ++
  (if ((cx : ℚ) + 1) * 50 ≤ m.x + r ∧ m.y - r < (cy : ℚ) * 50
    then [(cx + 1, cy - 1)] else []) ++
  (if ((cx : ℚ) + 1) * 50 ≤ m.x + r ∧ ((cy : ℚ) + 1) * 50 ≤ m.y + r
    then [(cx + 1, cy + 1)] else [])

/-- The spatial grid: an association list keyed by cell, in insertion
order (a JS `Map` preserves insertion order), each cell holding the
monster indices pushed into it. -/
abbrev Grid := List ((ℤ × ℤ) × List ℕ)

/-- `grid.get(cellKey).push(index)`, creating the cell on first use
(`part_000` lines 191-197, 231-237). -/
def gridInsert (g : Grid) (k : ℤ × ℤ) (i : ℕ) : Grid :=
  match g with
  | [] => [(k, [i])]
  | (k', l) :: rest =>
    if k' = k then (k', l ++ [i]) :: rest else (k', l) :: gridInsert rest k i

/-- Build the grid from the working monsters (post player-phase
positions), `part_000` lines 185-238. -/
def buildGrid (ms : List WMonster) : Grid :=
  ms.enum.foldl (fun g p =>
    (neighborCells p.2).foldl (fun g' k => gridInsert g' k p.1)
      (gridInsert g (cellOf p.2) p.1)) []

/-- The `i < j` index pairs of one cell's resident list, in loop order
(`part_000` lines 245-251). -/
def innerPairs : List ℕ → List (ℕ × ℕ)
  | [] => []
  | a :: rest => rest.map (fun b => (a, b)) ++ innerPairs rest

/-- The normalized pair id (`part_000` line 254: smaller index first). -/
def pairKey (p : ℕ × ℕ) : ℕ × ℕ := if p.1 < p.2 then p else (p.2, p.1)

/-- One candidate pair of the Monster–Monster loop (`part_000` lines
252-264): skip if already checked, otherwise record it and test-resolve
on the current working positions. -/
def monsterPairStep (env : Env) (st : List WMonster × List (ℕ × ℕ))
    (pr : ℕ × ℕ) : List WMonster × List (ℕ × ℕ) :=
  let key := pairKey pr
  if key ∈ st.2 then st
  else
    let checked := key :: st.2
    match st.1.get? pr.1, st.1.get? pr.2 with
    | some m1, some m2 =>
      if circlesCollide m1.circle m2.circle then
        let r := resolveCollisionW env m1.circle m2.circle
        ((st.1.set pr.1 (setMonsterPos m1 r.1)).set pr.2 (setMonsterPos m2 r.2),
         checked)
      else (st.1, checked)
    | _, _ => (st.1, checked)

/-- The Monster–Monster phase (`part_000` lines 179-266): build the grid,
then walk the cells in insertion order resolving each unchecked pair. -/
def monsterMonsterPhase (env : Env) (ms : List WMonster) : List WMonster :=
  ((((buildGrid ms).map fun kv => innerPairs kv.2).flatten).foldl
    (monsterPairStep env) (ms, [])).1

/-- A monster entry of the worker's `results.monsters` list: the working
monster copy plus the `flash` hit-feedback flag (the `color: '#FFFFFF'`
string set alongside it is presentation-only and not serialized). -/
structure RMonster where
  x : ℚ
  y : ℚ
  radius : ℚ
  mass : ℚ
  id : ℕ
  flash : Bool
deriving Repr, DecidableEq

/-- `results.monsters.push({ ...monster, color: '#FFFFFF' })`
(`part_000` lines 269-274); `flash` starts unset (falsy). -/
def toRMonster (m : WMonster) : RMonster := ⟨m.x, m.y, m.radius, m.mass, m.id, false⟩

/-- `results.monsters.find(m => m.id === monster.id)` followed by
`monsterInResults.flash = true` (`part_000` lines 291-294): sets the
flag on the first entry with the given id, no-op if absent. -/
def setFlashFirst : List RMonster → ℕ → List RMonster
  | [], _ => []
  | r :: rest, i =>
    if r.id = i then { r with flash := true } :: rest
    else r :: setFlashFirst rest i

/-- The loop state while one bullet is tested against all monsters
(`part_000` lines 277-307): the mutated bullet, its `bulletUpdated`
flag, and the accumulated results fields. -/
structure BulletPass where
  bullet : WBullet
  bulletUpdated : Bool
  rmonsters : List RMonster
  rbullets : List WBullet
  score : ℚ
deriving Repr, DecidableEq

/-- One Bullet–Monster test (`part_000` lines 281-306): on overlap,
increment the pierce counter (`(currentPierceCount || 0) + 1`), award 50
points for a player bullet, flash the monster, deactivate the bullet
once the counter exceeds its maximum, and push a copy of the bullet into
`results.bullets` on the first hit only. -/
def bulletMonsterStep (st : BulletPass) (m : WMonster) : BulletPass :=
  if circlesCollide st.bullet.circle m.circle then
    let b1 := { st.bullet with
      currentPierceCount := jsor st.bullet.currentPierceCount 0 + 1 }
    let score := if b1.isPlayerBullet then st.score + 50 else st.score
    let rm := setFlashFirst st.rmonsters m.id
    let b2 := if b1.maxPierceCount < b1.currentPierceCount
      then { b1 with isActive := false } else b1
    if st.bulletUpdated then ⟨b2, true, rm, st.rbullets, score⟩
    else ⟨b2, true, rm, st.rbullets ++ [b2], score⟩
  else st

/-- The accumulated state of the Bullet–Monster phase across bullets. -/
structure Phase3St where
  bullets : List WBullet
  rmonsters : List RMonster
  rbullets : List WBullet
  score : ℚ
deriving Repr, DecidableEq

/-- Process one bullet of the Bullet–Monster phase (`part_000` lines
277-308): run the inner monster loop with a fresh `bulletUpdated` flag
and collect the mutated bullet. -/
def bulletMonsterPhase (ms : List WMonster) (st : Phase3St) (b : WBullet) :
    Phase3St :=
  let r := ms.foldl bulletMonsterStep ⟨b, false, st.rmonsters, st.rbullets, st.score⟩
  ⟨st.bullets ++ [r.bullet], r.rmonsters, r.rbullets, r.score⟩

/-- One Bullet–Player test (`part_000` lines 311-317): a non-player
bullet overlapping the snapshot player is deactivated (the player is
invincible) and a copy is pushed into `results.bullets`. -/
def bulletPlayerStep (dp : Circle) (st : List WBullet × List WBullet)
    (b : WBullet) : List WBullet × List WBullet :=
  if !b.isPlayerBullet && circlesCollide b.circle dp then
    (st.1 ++ [{ b with isActive := false }], st.2 ++ [{ b with isActive := false }])
  else (st.1 ++ [b], st.2)

/-- The worker's `results` record. -/
structure WResults where
  player : Circle
  monsters : List RMonster
  bullets : List WBullet
  score : ℚ
deriving Repr, DecidableEq

/-- `processCollisions` output: the `results` record plus the final
state of the snapshot's (mutated-in-place) bullets and of the working
monster array. -/
structure WOutput where
  results : WResults
  dataBullets : List WBullet
  working : List WMonster
deriving Repr, DecidableEq

/-- `processCollisions(data)` (`src/unnamed/part_000` lines 157-323):
the four phases in source order, the score accumulated in the
Bullet–Monster phase. -/
def processCollisions (env : Env) (d : WData) : WOutput :=
  let p1 := playerMonsterPhase env d.player d.monsters
  let working := monsterMonsterPhase env p1.2
  let rmonsters0 := working.map toRMonster
  let p3 := d.bullets.foldl (bulletMonsterPhase working)
    ⟨[], rmonsters0, [], 0⟩
  let p4 := p3.bullets.foldl (bulletPlayerStep d.player) ([], p3.rbullets)
  { results := { player := p1.1, monsters := p3.rmonsters,
                 bullets := p4.2, score := p3.score },
    dataBullets := p4.1,
    working := working }

/-- `serializeResults` (`src/unnamed/part_000` lines 108-150): player
`x, y, radius, mass||1, score||0`; monster count; per monster `x, y,
radius, mass||1, flash`; bullet count; per entry of the sparse
`results.bullets` list its *position in that list* (`view[offset++] =
index`), the active flag, and the pierce count. -/
def serializeResults (r : WResults) : List ℚ :=
  r.player.x :: r.player.y :: r.player.radius :: jsor r.player.mass 1 ::
  jsor r.score 0 ::
  (r.monsters.length : ℚ) ::
  ((r.monsters.map fun m =>
      [m.x, m.y, m.radius, jsor m.mass 1, if m.flash then 1 else 0]).flatten ++
    (r.bullets.length : ℚ) ::
    (r.bullets.enum.map fun p =>
      [(p.1 : ℚ), if p.2.isActive then 1 else 0, p.2.currentPierceCount]).flatten)


/-! ## Result/snapshot alignment (C10) -/

/-- The collision-invariant signature of a working monster: its id,
radius and mass (resolution moves only `x`, `y`). -/
def msig (m : WMonster) : ℕ × ℚ × ℚ := (m.id, m.radius, m.mass)

/-- The collision-invariant signature of a results monster. -/
def rsig (r : RMonster) : ℕ × ℚ × ℚ := (r.id, r.radius, r.mass)

theorem msig_setMonsterPos (m : WMonster) (c : Circle) :
    msig (setMonsterPos m c) = msig m := rfl

theorem sig_set {l : List WMonster} {i : ℕ} {m m' : WMonster}
    (hget : l.get? i = some m) (hsig : msig m' = msig m) (j : ℕ) :
    ((l.set i m').get? j).map msig = (l.get? j).map msig := by
  by_cases hij : i = j
  · subst hij
    rw [List.get?_set_eq, hget]
    simp [hsig]
  · rw [List.get?_set_ne _ _ hij]

theorem playerMonsterStep_sig (env : Env) (dp : Circle)
    (st : Circle × List WMonster) (i : ℕ) :
    (playerMonsterStep env dp st i).2.length = st.2.length ∧
    ∀ j, ((playerMonsterStep env dp st i).2.get? j).map msig =
      (st.2.get? j).map msig := by
  unfold playerMonsterStep
  cases hg : st.2.get? i with
  | none => exact ⟨rfl, fun j => rfl⟩
  | some m =>
    by_cases hc : circlesCollide dp m.circle
    · simp only [hc, if_true]
      exact ⟨List.length_set .., fun j => sig_set hg (msig_setMonsterPos ..) j⟩
    · simp only [hc, if_false]
      exact ⟨rfl, fun j => rfl⟩

theorem playerMonster_fold_sig (env : Env) (dp : Circle) (is : List ℕ)
    (st : Circle × List WMonster) :
    (is.foldl (playerMonsterStep env dp) st).2.length = st.2.length ∧
    ∀ j, ((is.foldl (playerMonsterStep env dp) st).2.get? j).map msig =
      (st.2.get? j).map msig := by
  induction is generalizing st with
  | nil => exact ⟨rfl, fun j => rfl⟩
  | cons i tl ih =>
    simp only [List.foldl_cons]
    obtain ⟨h1, h2⟩ := ih (playerMonsterStep env dp st i)
    obtain ⟨g1, g2⟩ := playerMonsterStep_sig env dp st i
    exact ⟨h1.trans g1, fun j => (h2 j).trans (g2 j)⟩

theorem monsterPairStep_sig (env : Env) (st : List WMonster × List (ℕ × ℕ))
    (pr : ℕ × ℕ) :
    (monsterPairStep env st pr).1.length = st.1.length ∧
    ∀ j, ((monsterPairStep env st pr).1.get? j).map msig =
      (st.1.get? j).map msig := by
  unfold monsterPairStep
  by_cases hk : pairKey pr ∈ st.2
  · rw [if_pos hk]
    exact ⟨rfl, fun j => rfl⟩
  · rw [if_neg hk]
    cases hg1 : st.1.get? pr.1 with
    | none =>
      cases hg2 : st.1.get? pr.2 <;> exact ⟨rfl, fun j => rfl⟩
    | some m1 =>
      cases hg2 : st.1.get? pr.2 with
      | none => exact ⟨rfl, fun j => rfl⟩
      | some m2 =>
        by_cases hc : circlesCollide m1.circle m2.circle
        · simp only [hc, if_true]
          have hex : ∃ m2', (st.1.set pr.1
              (setMonsterPos m1 (resolveCollisionW env m1.circle m2.circle).1)).get? pr.2 =
              some m2' ∧ msig m2' = msig m2 := by
            by_cases h12 : pr.1 = pr.2
            · refine ⟨setMonsterPos m1 (resolveCollisionW env m1.circle m2.circle).1, ?_, ?_⟩
              · rw [← h12, List.get?_set_eq, hg1]
                rfl
              · rw [msig_setMonsterPos]
                rw [h12] at hg1
                rw [hg1] at hg2
                injection hg2 with hg2
                rw [hg2]
            · exact ⟨m2, by rw [List.get?_set_ne _ _ h12, hg2], rfl⟩
          obtain ⟨m2', hg2', hsig2⟩ := hex
          refine ⟨by simp [List.length_set], fun j => ?_⟩
          have step2 := sig_set hg2'
            (show msig (setMonsterPos m2 (resolveCollisionW env m1.circle m2.circle).2) = msig m2' by
              rw [msig_setMonsterPos]
              exact hsig2.symm) j
          have step1 := sig_set hg1
            (msig_setMonsterPos m1 (resolveCollisionW env m1.circle m2.circle).1) j
          rw [step2, step1]
        · simp only [hc, if_false]
          exact ⟨rfl, fun j => rfl⟩

theorem monsterPair_fold_sig (env : Env) (prs : List (ℕ × ℕ))
    (st : List WMonster × List (ℕ × ℕ)) :
    (prs.foldl (monsterPairStep env) st).1.length = st.1.length ∧
    ∀ j, ((prs.foldl (monsterPairStep env) st).1.get? j).map msig =
      (st.1.get? j).map msig := by
  induction prs generalizing st with
  | nil => exact ⟨rfl, fun j => rfl⟩
  | cons pr tl ih =>
    simp only [List.foldl_cons]
    obtain ⟨h1, h2⟩ := ih (monsterPairStep env st pr)
    obtain ⟨g1, g2⟩ := monsterPairStep_sig env st pr
    exact ⟨h1.trans g1, fun j => (h2 j).trans (g2 j)⟩

theorem setFlashFirst_sig (l : List RMonster) (i : ℕ) :
    (setFlashFirst l i).length = l.length ∧
    ∀ j, ((setFlashFirst l i).get? j).map rsig = (l.get? j).map rsig := by
  induction l with
  | nil => exact ⟨rfl, fun j => rfl⟩
  | cons r rest ih =>
    unfold setFlashFirst
    by_cases hr : r.id = i
    · rw [if_pos hr]
      refine ⟨rfl, fun j => ?_⟩
      cases j with
      | zero => rfl
      | succ j => rfl
    · rw [if_neg hr]
      refine ⟨by simp [ih.1], fun j => ?_⟩
      cases j with
      | zero => rfl
      | succ j =>
        simp only [List.get?_cons_succ]
        exact ih.2 j

theorem bulletMonsterStep_rsig (st : BulletPass) (m : WMonster) :
    (bulletMonsterStep st m).rmonsters.length = st.rmonsters.length ∧
    ∀ j, ((bulletMonsterStep st m).rmonsters.get? j).map rsig =
      (st.rmonsters.get? j).map rsig := by
  unfold bulletMonsterStep
  by_cases hc : circlesCollide st.bullet.circle m.circle
  · rw [if_pos hc]
    obtain ⟨h1, h2⟩ := setFlashFirst_sig st.rmonsters m.id
    by_cases hu : st.bulletUpdated
    · rw [if_pos hu]
      exact ⟨h1, h2⟩
    · rw [if_neg hu]
      exact ⟨h1, h2⟩
  · rw [if_neg hc]
    exact ⟨rfl, fun j => rfl⟩

theorem bulletMonster_fold_rsig (ms : List WMonster) (st : BulletPass) :
    (ms.foldl bulletMonsterStep st).rmonsters.length = st.rmonsters.length ∧
    ∀ j, ((ms.foldl bulletMonsterStep st).rmonsters.get? j).map rsig =
      (st.rmonsters.get? j).map rsig := by
  induction ms generalizing st with
  | nil => exact ⟨rfl, fun j => rfl⟩
  | cons m tl ih =>
    simp only [List.foldl_cons]
    obtain ⟨h1, h2⟩ := ih (bulletMonsterStep st m)
    obtain ⟨g1, g2⟩ := bulletMonsterStep_rsig st m
    exact ⟨h1.trans g1, fun j => (h2 j).trans (g2 j)⟩

theorem phase3_fold_rsig (ms : List WMonster) (bs : List WBullet) (st : Phase3St) :
    (bs.foldl (bulletMonsterPhase ms) st).rmonsters.length = st.rmonsters.length ∧
    ∀ j, ((bs.foldl (bulletMonsterPhase ms) st).rmonsters.get? j).map rsig =
      (st.rmonsters.get? j).map rsig := by
  induction bs generalizing st with
  | nil => exact ⟨rfl, fun j => rfl⟩
  | cons b tl ih =>
    simp only [List.foldl_cons]
    obtain ⟨h1, h2⟩ := ih (bulletMonsterPhase ms st b)
    obtain ⟨g1, g2⟩ := bulletMonster_fold_rsig ms ⟨b, false, st.rmonsters, st.rbullets, st.score⟩
    exact ⟨h1.trans g1, fun j => (h2 j).trans (g2 j)⟩

theorem get?_append_right' (l l' : List ℚ) (n : ℕ) :
    (l ++ l').get? (l.length + n) = l'.get? n := by
  induction l with
  | nil => simp
  | cons a tl ih =>
    simpa [Nat.succ_add] using ih

theorem monsterChunk_length (rms : List RMonster) :
    ((rms.map fun m =>
      [m.x, m.y, m.radius, jsor m.mass 1, if m.flash then 1 else 0]).flatten).length =
    5 * rms.length := by
  induction rms with
  | nil => rfl
  | cons m tl ih =>
    simp only [List.map_cons, List.flatten_cons, List.length_append, ih,
      List.length_cons, List.length_nil]
    omega

theorem bulletChunk_get (bs : List WBullet) (k i : ℕ) (b : WBullet)
    (h : bs.get? i = some b) :
    (((List.enumFrom k bs).map fun p =>
        [(p.1 : ℚ), if p.2.isActive then 1 else 0, p.2.currentPierceCount]).flatten).get? (3 * i) =
      some ((k + i : ℕ) : ℚ) ∧
    (((List.enumFrom k bs).map fun p =>
        [(p.1 : ℚ), if p.2.isActive then 1 else 0, p.2.currentPierceCount]).flatten).get? (3 * i + 1) =
      some (if b.isActive then 1 else 0) ∧
    (((List.enumFrom k bs).map fun p =>
        [(p.1 : ℚ), if p.2.isActive then 1 else 0, p.2.currentPierceCount]).flatten).get? (3 * i + 2) =
      some b.currentPierceCount := by
  induction bs generalizing k i with
  | nil => simp at h
  | cons hd tl ih =>
    cases i with
    | zero =>
      simp only [List.get?_cons_zero, Option.some.injEq] at h
      subst h
      simp [List.enumFrom_cons]
    | succ i =>
      simp only [List.get?_cons_succ] at h
      obtain ⟨ih1, ih2, ih3⟩ := ih (k + 1) i h
      have e : 3 * (i + 1) = 3 * i + 3 := by ring
      rw [e]
      simp only [List.enumFrom_cons, List.map_cons, List.flatten_cons,
        List.cons_append, List.nil_append]
      refine ⟨?_, ?_, ?_⟩
      · show (((List.enumFrom (k + 1) tl).map fun p =>
          [(p.1 : ℚ), if p.2.isActive then 1 else 0, p.2.currentPierceCount]).flatten).get? (3 * i) =
          some ((k + (i + 1) : ℕ) : ℚ)
        rw [ih1]
        congr 2
        omega
      · show _ = some (if b.isActive then 1 else 0)
        exact ih2
      · show _ = some b.currentPierceCount
        exact ih3

/-- In the worker's serialized result, the `i`-th bullet entry's first
value (`view[offset++] = index`) is `i` — the entry's position within
the sparse `results.bullets` list itself — followed by that entry's
active flag and pierce count. -/
theorem serializeResults_bullet_entry (r : WResults) (i : ℕ) (b : WBullet)
    (h : r.bullets.get? i = some b) :
    (serializeResults r).get? (3 * i + 5 * r.monsters.length + 7) = some (i : ℚ) ∧
    (serializeResults r).get? (3 * i + 5 * r.monsters.length + 8) =
      some (if b.isActive then 1 else 0) ∧
    (serializeResults r).get? (3 * i + 5 * r.monsters.length + 9) =
      some b.currentPierceCount := by
  have hskip : ∀ (l : List ℚ) (a0 a1 a2 a3 a4 a5 : ℚ) (n : ℕ),
      (a0 :: a1 :: a2 :: a3 :: a4 :: a5 :: l).get? (n + 6) = l.get? n :=
    fun l a0 a1 a2 a3 a4 a5 n => rfl
  have hmlen := monsterChunk_length r.monsters
  obtain ⟨h1, h2, h3⟩ := bulletChunk_get r.bullets 0 i b h
  have key : ∀ (n : ℕ),
      (serializeResults r).get? (5 * r.monsters.length + n + 7) =
      ((r.bullets.enum.map fun p =>
        [(p.1 : ℚ), if p.2.isActive then 1 else 0, p.2.currentPierceCount]).flatten).get? n := by
    intro n
    unfold serializeResults
    have e1 : 5 * r.monsters.length + n + 7 = (5 * r.monsters.length + (n + 1)) + 6 := by omega
    rw [e1, hskip]
    have e2 : 5 * r.monsters.length + (n + 1) =
        ((r.monsters.map fun m =>
          [m.x, m.y, m.radius, jsor m.mass 1, if m.flash then 1 else 0]).flatten).length +
        (n + 1) := by rw [hmlen]
    rw [e2, get?_append_right']
    rfl
  have e0 : (3 * i : ℕ) + 5 * r.monsters.length + 7 =
      5 * r.monsters.length + (3 * i) + 7 := by omega
  have ea : (3 * i : ℕ) + 5 * r.monsters.length + 8 =
      5 * r.monsters.length + (3 * i + 1) + 7 := by omega
  have eb : (3 * i : ℕ) + 5 * r.monsters.length + 9 =
      5 * r.monsters.length + (3 * i + 2) + 7 := by omega
  rw [e0, ea, eb, key, key, key]
  have henum : r.bullets.enum = List.enumFrom 0 r.bullets := rfl
  rw [henum]
  refine ⟨?_, h2, h3⟩
  rw [h1]
  norm_num

theorem id_of_rsig {x y : Option RMonster} (h : x.map rsig = y.map rsig) :
    x.map RMonster.id = y.map RMonster.id := by
  cases x <;> cases y <;> simp_all [rsig, Prod.ext_iff]

theorem id_of_msig {x y : Option WMonster} (h : x.map msig = y.map msig) :
    x.map WMonster.id = y.map WMonster.id := by
  cases x <;> cases y <;> simp_all [msig, Prod.ext_iff]

theorem processCollisions_monsters_align (env : Env) (d : WData) :
    (processCollisions env d).results.monsters.length = d.monsters.length ∧
    ∀ i, ((processCollisions env d).results.monsters.get? i).map RMonster.id =
      (d.monsters.get? i).map WMonster.id := by
  have hres : (processCollisions env d).results.monsters =
      (d.bullets.foldl
        (bulletMonsterPhase
          (monsterMonsterPhase env (playerMonsterPhase env d.player d.monsters).2))
        ⟨[], (monsterMonsterPhase env
          (playerMonsterPhase env d.player d.monsters).2).map toRMonster,
          [], 0⟩).rmonsters := rfl
  obtain ⟨p3len, p3sig⟩ := phase3_fold_rsig
    (monsterMonsterPhase env (playerMonsterPhase env d.player d.monsters).2)
    d.bullets
    ⟨[], (monsterMonsterPhase env
      (playerMonsterPhase env d.player d.monsters).2).map toRMonster, [], 0⟩
  obtain ⟨mmlen, mmsig⟩ := monsterPair_fold_sig env
    (((buildGrid (playerMonsterPhase env d.player d.monsters).2).map
      fun kv => innerPairs kv.2).flatten)
    ((playerMonsterPhase env d.player d.monsters).2, [])
  obtain ⟨pmlen, pmsig⟩ := playerMonster_fold_sig env d.player
    (List.range d.monsters.length) (d.player, d.monsters)
  have hworking : monsterMonsterPhase env (playerMonsterPhase env d.player d.monsters).2 =
      ((((buildGrid (playerMonsterPhase env d.player d.monsters).2).map
        fun kv => innerPairs kv.2).flatten).foldl (monsterPairStep env)
        ((playerMonsterPhase env d.player d.monsters).2, [])).1 := rfl
  have hlen : (monsterMonsterPhase env
      (playerMonsterPhase env d.player d.monsters).2).length = d.monsters.length := by
    rw [hworking, mmlen]
    exact pmlen
  have hsig : ∀ i, ((monsterMonsterPhase env
      (playerMonsterPhase env d.player d.monsters).2).get? i).map msig =
      (d.monsters.get? i).map msig := by
    intro i
    rw [hworking]
    exact (mmsig i).trans (pmsig i)
  refine ⟨?_, fun i => ?_⟩
  · rw [hres, p3len, List.length_map]
    exact hlen
  · rw [hres, id_of_rsig (p3sig i), List.get?_map, Option.map_map]
    have hcomp : RMonster.id ∘ toRMonster = WMonster.id := rfl
    rw [hcomp]
    exact id_of_msig (hsig i)

/-- C10. The worker's result record contains exactly one monster entry
per snapshot monster, in the snapshot's order (entry `i` carries the id
of snapshot monster `i`); and in the serialized result each bullet
entry's index field equals the entry's position within the sparse
`results.bullets` list itself (the serializer writes the `forEach`
index, not the bullet's position in the snapshot's bullet list). -/
theorem worker_result_alignment (env : Env) (d : WData) :
    ((processCollisions env d).results.monsters.length = d.monsters.length ∧
      ∀ i, ((processCollisions env d).results.monsters.get? i).map RMonster.id =
        (d.monsters.get? i).map WMonster.id) ∧
    ∀ i b, (processCollisions env d).results.bullets.get? i = some b →
      (serializeResults (processCollisions env d).results).get?
        (3 * i + 5 * (processCollisions env d).results.monsters.length + 7) =
        some (i : ℚ) ∧
      (serializeResults (processCollisions env d).results).get?
        (3 * i + 5 * (processCollisions env d).results.monsters.length + 8) =
        some (if b.isActive then 1 else 0) ∧
      (serializeResults (processCollisions env d).results).get?
        (3 * i + 5 * (processCollisions env d).results.monsters.length + 9) =
        some b.currentPierceCount :=
  ⟨processCollisions_monsters_align env d,
   fun i b h => serializeResults_bullet_entry _ i b h⟩

/-- Witness for `worker_result_alignment`: a snapshot with no monsters
and one enemy bullet overlapping the player; the lone result entry is
serialized with index field 0 (its position in the sparse list). -/
theorem worker_result_alignment_witness :
    (serializeResults (processCollisions ⟨fun _ => 0, 1, 0⟩
      ⟨⟨0, 0, 20, 50⟩, [], [⟨5, 0, 4, false, 5, 0, 10, 0, true⟩]⟩).results).get?
      (3 * 0 + 5 * (processCollisions ⟨fun _ => 0, 1, 0⟩
        ⟨⟨0, 0, 20, 50⟩, [], [⟨5, 0, 4, false, 5, 0, 10, 0, true⟩]⟩).results.monsters.length + 7) =
      some ((0 : ℕ) : ℚ) := by
  have hb : (processCollisions ⟨fun _ => 0, 1, 0⟩
      ⟨⟨0, 0, 20, 50⟩, [], [⟨5, 0, 4, false, 5, 0, 10, 0, true⟩]⟩).results.bullets.get? 0 =
      some ⟨5, 0, 4, false, 5, 0, 10, 0, false⟩ := by
    norm_num [processCollisions, playerMonsterPhase, monsterMonsterPhase,
      buildGrid, bulletMonsterPhase, bulletMonsterStep, bulletPlayerStep,
      circlesCollide, WBullet.circle]
  exact ((worker_result_alignment ⟨fun _ => 0, 1, 0⟩
    ⟨⟨0, 0, 20, 50⟩, [], [⟨5, 0, 4, false, 5, 0, 10, 0, true⟩]⟩).2 0 _ hb).1

/-! ## Bullet pierce and deactivation (C4, C7) -/

attribute [ext] WBullet

/-- The number of (working) monsters a bullet overlaps — its hit count
in the Bullet–Monster phase. -/
def hits (b : WBullet) (ms : List WMonster) : ℕ :=
  (ms.filter fun m => circlesCollide b.circle m.circle).length

theorem hits_congr {b₁ b₂ : WBullet} (h : b₁.circle = b₂.circle)
    (ms : List WMonster) : hits b₁ ms = hits b₂ ms := by
  unfold hits
  rw [h]

/-- The bullet's evolution across the inner Bullet–Monster loop: its
geometry and identity are untouched, its pierce count grows by exactly
its hit count, and it ends active iff it started active and either was
never hit or its final pierce count is still within the maximum. -/
theorem bulletMonsterFold_bullet (ms : List WMonster) (st : BulletPass) :
    (ms.foldl bulletMonsterStep st).bullet =
      { st.bullet with
        currentPierceCount :=
          st.bullet.currentPierceCount + (hits st.bullet ms : ℚ),
        isActive := st.bullet.isActive &&
          decide (hits st.bullet ms = 0 ∨
            st.bullet.currentPierceCount + (hits st.bullet ms : ℚ) ≤
              st.bullet.maxPierceCount) } := by
  induction ms generalizing st with
  | nil =>
    obtain ⟨⟨bx, by_, br, bipb, bd, bp, bm, bid, ba⟩, u, rm, rb, sc⟩ := st
    show WBullet.mk bx by_ br bipb bd bp bm bid ba = _
    simp [hits]
  | cons m tl ih =>
    obtain ⟨b, u, rm, rb, sc⟩ := st
    simp only [List.foldl_cons]
    by_cases hc : circlesCollide b.circle m.circle
    · have hb2 : (bulletMonsterStep ⟨b, u, rm, rb, sc⟩ m).bullet =
          { b with currentPierceCount := b.currentPierceCount + 1,
                   isActive := b.isActive &&
                     decide (b.currentPierceCount + 1 ≤ b.maxPierceCount) } := by
        unfold bulletMonsterStep
        rw [if_pos hc]
        simp only [jsor_zero_right]
        by_cases hmax : b.maxPierceCount < b.currentPierceCount + 1
        · rw [if_pos hmax]
          by_cases hu : u <;>
            simp [hu, decide_eq_false (not_le.mpr hmax)]
        · rw [if_neg hmax]
          by_cases hu : u <;>
            simp [hu, decide_eq_true (not_lt.mp hmax)]
      have hhits : hits b (m :: tl) = hits b tl + 1 := by
        unfold hits
        rw [List.filter_cons]
        simp [hc]
      rw [ih (bulletMonsterStep ⟨b, u, rm, rb, sc⟩ m), hb2]
      have hce : ({ b with
                    currentPierceCount := b.currentPierceCount + 1,
                    isActive := b.isActive &&
                      decide (b.currentPierceCount + 1 ≤ b.maxPierceCount) } :
          WBullet).circle = b.circle := rfl
      rw [hits_congr hce tl, hhits]
      obtain ⟨bx, by_, br, bipb, bd, bp, bm, bid, ba⟩ := b
      simp only [WBullet.mk.injEq, true_and, and_true]
      constructor
      · push_cast
        ring
      · rw [Bool.and_assoc]
        congr 1
        rw [← Bool.decide_and]
        apply decide_eq_decide.mpr
        constructor
        · rintro ⟨h1, h2 | h2⟩
          · rw [h2]
            right
            push_cast
            linarith
          · right
            push_cast at h2 ⊢
            linarith
        · rintro (h1 | h1)
          · omega
          · have hge : (0:ℚ) ≤ (hits ⟨bx, by_, br, bipb, bd, bp, bm, bid, ba⟩ tl : ℚ) := by
              positivity
            push_cast at h1 ⊢
            exact ⟨by linarith, Or.inr (by linarith)⟩
    · have hstep : bulletMonsterStep ⟨b, u, rm, rb, sc⟩ m = ⟨b, u, rm, rb, sc⟩ := by
        unfold bulletMonsterStep
        rw [if_neg hc]
      have hhits : hits b (m :: tl) = hits b tl := by
        unfold hits
        rw [List.filter_cons]
        simp [hc]
      rw [hstep, ih ⟨b, u, rm, rb, sc⟩, hhits]

/-- The net effect of the Bullet–Monster phase on one bullet (derived
form of `bulletMonsterFold_bullet`). -/
def bulletAfterMonsters (ms : List WMonster) (b : WBullet) : WBullet :=
  { b with
    currentPierceCount := b.currentPierceCount + (hits b ms : ℚ),
    isActive := b.isActive &&
      decide (hits b ms = 0 ∨
        b.currentPierceCount + (hits b ms : ℚ) ≤ b.maxPierceCount) }

/-- The net effect of the Bullet–Player phase on one bullet. -/
def bulletAfterPlayer (dp : Circle) (b : WBullet) : WBullet :=
  if !b.isPlayerBullet && circlesCollide b.circle dp then
    { b with isActive := false }
  else b

theorem phase3_bullets (ms : List WMonster) (bs : List WBullet) (st : Phase3St) :
    (bs.foldl (bulletMonsterPhase ms) st).bullets =
      st.bullets ++ bs.map (bulletAfterMonsters ms) := by
  induction bs generalizing st with
  | nil => simp
  | cons b tl ih =>
    simp only [List.foldl_cons, List.map_cons]
    rw [ih]
    unfold bulletMonsterPhase
    simp only
    rw [bulletMonsterFold_bullet]
    show (st.bullets ++ [bulletAfterMonsters ms b]) ++ tl.map (bulletAfterMonsters ms) = _
    rw [List.append_assoc]
    rfl

theorem phase4_bullets (dp : Circle) (bs : List WBullet)
    (st : List WBullet × List WBullet) :
    (bs.foldl (bulletPlayerStep dp) st).1 = st.1 ++ bs.map (bulletAfterPlayer dp) := by
  induction bs generalizing st with
  | nil => simp
  | cons b tl ih =>
    simp only [List.foldl_cons, List.map_cons]
    rw [ih]
    unfold bulletPlayerStep bulletAfterPlayer
    by_cases hc : !b.isPlayerBullet && circlesCollide b.circle dp
    · rw [if_pos hc, if_pos hc]
      simp [List.append_assoc]
    · rw [if_neg hc, if_neg hc]
      simp [List.append_assoc]

/-- The final state of the snapshot's bullets after the whole collision
pass, bullet by bullet. -/
theorem processCollisions_dataBullets (env : Env) (d : WData) :
    (processCollisions env d).dataBullets =
      d.bullets.map fun b =>
        bulletAfterPlayer d.player
          (bulletAfterMonsters (processCollisions env d).working b) := by
  have h4 : (processCollisions env d).dataBullets =
      ((d.bullets.foldl
        (bulletMonsterPhase (processCollisions env d).working)
        ⟨[], (processCollisions env d).working.map toRMonster, [], 0⟩).bullets.foldl
        (bulletPlayerStep d.player)
        ([], (d.bullets.foldl
          (bulletMonsterPhase (processCollisions env d).working)
          ⟨[], (processCollisions env d).working.map toRMonster, [], 0⟩).rbullets)).1 := rfl
  rw [h4, phase4_bullets, phase3_bullets]
  simp [List.map_map]

/-- A bullet of the original (non-worker) game,
`src/unnamed/part_002` class `Bullet`: position, velocity (computed once
at construction from angle and speed), radius and flags (the cosmetic
`color` string is not modelled). -/
structure JsBullet where
  x : ℚ
  y : ℚ
  angle : ℚ
  speed : ℚ
  damage : ℚ
  radius : ℚ
  isPlayerBullet : Bool
  isActive : Bool
  vx : ℚ
  vy : ℚ
deriving Repr, DecidableEq

/-- `Bullet.update(deltaTime)` (`src/unnamed/part_002` lines 21-31):
move by `v * dt`, then deactivate when fully outside the canvas expanded
by the bullet's radius.  No other field is touched. -/
def bulletUpdate (canvasW canvasH dt : ℚ) (b : JsBullet) : JsBullet :=
  let newX := b.x + b.vx * dt
  let newY := b.y + b.vy * dt
  if newX < -b.radius ∨ canvasW + b.radius < newX ∨
      newY < -b.radius ∨ canvasH + b.radius < newY then
    { b with x := newX, y := newY, isActive := false }
  else { b with x := newX, y := newY }

/-- C4, counterexample. An in-bounds enemy bullet (position (5,0),
radius 4, pierce 0 of 10, active) overlapping the player is deactivated
by the Bullet–Player pass of `processCollisions` — although it neither
left the playfield (a `Bullet.update` step on the same geometry keeps it
active inside an 800×600 canvas) nor exceeded its pierce maximum
(its pierce count is still 0). -/
theorem bullet_player_deactivation_uncovered :
    (processCollisions ⟨fun _ => 0, 1, 0⟩
      ⟨⟨0, 0, 20, 50⟩, [], [⟨5, 0, 4, false, 5, 0, 10, 0, true⟩]⟩).dataBullets =
      [⟨5, 0, 4, false, 5, 0, 10, 0, false⟩] ∧
    ((5:ℚ), (0:ℚ)) = ((5:ℚ), (0:ℚ)) ∧
    ((0:ℚ) ≤ 10) ∧
    (bulletUpdate 800 600 0 ⟨5, 0, 0, 0, 5, 4, false, true, 0, 0⟩).isActive = true := by
  refine ⟨?_, rfl, by norm_num, ?_⟩
  · norm_num [processCollisions, playerMonsterPhase, monsterMonsterPhase,
      buildGrid, bulletMonsterPhase, bulletMonsterStep, bulletPlayerStep,
      circlesCollide, WBullet.circle]
  · norm_num [bulletUpdate]

/-- C4, amended. (i) `Bullet.update` moves the bullet and clears
`isActive` exactly when the new position is fully outside the expanded
playfield bounds — touching no other field; a bullet's pierce counters
are untouched by `update`.  (ii) In the worker's collision pass each
bullet's pierce count grows by exactly its hit count (hence is
non-decreasing), and the bullet ends inactive iff it started inactive,
or it was hit and its pierce count exceeded its maximum, or — the case
the original claim misses — it is an enemy bullet overlapping the
player (the Bullet–Player pass, `part_000` lines 310-317). -/
theorem bullet_deactivation_characterization (canvasW canvasH dt : ℚ)
    (jb : JsBullet) (env : Env) (d : WData) :
    (bulletUpdate canvasW canvasH dt jb =
      { jb with
          x := jb.x + jb.vx * dt
          y := jb.y + jb.vy * dt
          isActive := jb.isActive &&
            !decide (jb.x + jb.vx * dt < -jb.radius ∨
              canvasW + jb.radius < jb.x + jb.vx * dt ∨
              jb.y + jb.vy * dt < -jb.radius ∨
              canvasH + jb.radius < jb.y + jb.vy * dt) }) ∧
    (∀ i b, d.bullets.get? i = some b →
      ∃ b', (processCollisions env d).dataBullets.get? i = some b' ∧
        b'.currentPierceCount =
          b.currentPierceCount + (hits b (processCollisions env d).working : ℚ) ∧
        b.currentPierceCount ≤ b'.currentPierceCount ∧
        (b'.isActive = false ↔
          b.isActive = false ∨
          (1 ≤ hits b (processCollisions env d).working ∧
            b.maxPierceCount < b.currentPierceCount +
              (hits b (processCollisions env d).working : ℚ)) ∨
          (b.isPlayerBullet = false ∧
            circlesCollide b.circle d.player = true))) := by
  constructor
  · unfold bulletUpdate
    by_cases hout : jb.x + jb.vx * dt < -jb.radius ∨
        canvasW + jb.radius < jb.x + jb.vx * dt ∨
        jb.y + jb.vy * dt < -jb.radius ∨
        canvasH + jb.radius < jb.y + jb.vy * dt
    · rw [if_pos hout]
      obtain ⟨bx, by_, bang, bsp, bd, br, bipb, ba, bvx, bvy⟩ := jb
      simp only [JsBullet.mk.injEq, decide_eq_true hout]
      simp
    · rw [if_neg hout]
      obtain ⟨bx, by_, bang, bsp, bd, br, bipb, ba, bvx, bvy⟩ := jb
      simp only [JsBullet.mk.injEq, decide_eq_false hout]
      simp
  · intro i b h
    refine ⟨bulletAfterPlayer d.player
      (bulletAfterMonsters (processCollisions env d).working b), ?_, ?_, ?_, ?_⟩
    · rw [processCollisions_dataBullets, List.get?_map, h]
      rfl
    · unfold bulletAfterPlayer
      by_cases hc : !(bulletAfterMonsters (processCollisions env d).working b).isPlayerBullet &&
          circlesCollide (bulletAfterMonsters (processCollisions env d).working b).circle d.player
      · rw [if_pos hc]
        rfl
      · rw [if_neg hc]
        rfl
    · have hpos : (0:ℚ) ≤ (hits b (processCollisions env d).working : ℚ) := by positivity
      have hpe : (bulletAfterPlayer d.player
          (bulletAfterMonsters (processCollisions env d).working b)).currentPierceCount =
          b.currentPierceCount + (hits b (processCollisions env d).working : ℚ) := by
        unfold bulletAfterPlayer
        by_cases hc : !(bulletAfterMonsters (processCollisions env d).working b).isPlayerBullet &&
            circlesCollide (bulletAfterMonsters (processCollisions env d).working b).circle d.player
        · rw [if_pos hc]
          rfl
        · rw [if_neg hc]
          rfl
      rw [hpe]
      linarith
    · have hipb : (bulletAfterMonsters (processCollisions env d).working b).isPlayerBullet =
        b.isPlayerBullet := rfl
      have hcirc : (bulletAfterMonsters (processCollisions env d).working b).circle =
        b.circle := rfl
      unfold bulletAfterPlayer
      rw [hipb, hcirc]
      by_cases hc : !b.isPlayerBullet && circlesCollide b.circle d.player
      · rw [if_pos hc]
        simp only [Bool.and_eq_true, Bool.not_eq_true'] at hc
        simp [hc.1, hc.2]
      · rw [if_neg hc]
        simp only [Bool.and_eq_true, Bool.not_eq_true', not_and] at hc
        show (bulletAfterMonsters (processCollisions env d).working b).isActive = false ↔ _
        have hact : (bulletAfterMonsters (processCollisions env d).working b).isActive =
            (b.isActive && decide (hits b (processCollisions env d).working = 0 ∨
              b.currentPierceCount + (hits b (processCollisions env d).working : ℚ) ≤
                b.maxPierceCount)) := rfl
        rw [hact]
        cases hb : b.isActive with
        | false => simp
        | true =>
          simp only [Bool.true_and, decide_eq_false_iff_not, not_or, not_le]
          constructor
          · rintro ⟨h1, h2⟩
            right
            left
            exact ⟨by omega, h2⟩
          · rintro (h1 | ⟨h1, h2⟩ | ⟨h1, h2⟩)
            · exact absurd h1 (by simp)
            · exact ⟨by omega, h2⟩
            · exact absurd h2 (by simpa using hc h1)

/-- Witness for `bullet_deactivation_characterization` at the enemy
bullet of the counterexample input. -/
theorem bullet_deactivation_characterization_witness :
    ∃ b', (processCollisions ⟨fun _ => 0, 1, 0⟩
        ⟨⟨0, 0, 20, 50⟩, [], [⟨5, 0, 4, false, 5, 0, 10, 0, true⟩]⟩).dataBullets.get? 0 =
        some b' ∧
      b'.currentPierceCount =
        (⟨5, 0, 4, false, 5, 0, 10, 0, true⟩ : WBullet).currentPierceCount +
          (hits ⟨5, 0, 4, false, 5, 0, 10, 0, true⟩
            (processCollisions ⟨fun _ => 0, 1, 0⟩
              ⟨⟨0, 0, 20, 50⟩, [], [⟨5, 0, 4, false, 5, 0, 10, 0, true⟩]⟩).working : ℚ) ∧
      (⟨5, 0, 4, false, 5, 0, 10, 0, true⟩ : WBullet).currentPierceCount ≤
        b'.currentPierceCount ∧
      (b'.isActive = false ↔
        (⟨5, 0, 4, false, 5, 0, 10, 0, true⟩ : WBullet).isActive = false ∨
        (1 ≤ hits ⟨5, 0, 4, false, 5, 0, 10, 0, true⟩
            (processCollisions ⟨fun _ => 0, 1, 0⟩
              ⟨⟨0, 0, 20, 50⟩, [], [⟨5, 0, 4, false, 5, 0, 10, 0, true⟩]⟩).working ∧
          (⟨5, 0, 4, false, 5, 0, 10, 0, true⟩ : WBullet).maxPierceCount <
            (⟨5, 0, 4, false, 5, 0, 10, 0, true⟩ : WBullet).currentPierceCount +
              (hits ⟨5, 0, 4, false, 5, 0, 10, 0, true⟩
                (processCollisions ⟨fun _ => 0, 1, 0⟩
                  ⟨⟨0, 0, 20, 50⟩, [], [⟨5, 0, 4, false, 5, 0, 10, 0, true⟩]⟩).working : ℚ)) ∨
        ((⟨5, 0, 4, false, 5, 0, 10, 0, true⟩ : WBullet).isPlayerBullet = false ∧
          circlesCollide (⟨5, 0, 4, false, 5, 0, 10, 0, true⟩ : WBullet).circle
            (⟨0, 0, 20, 50⟩ : Circle) = true)) :=
  (bullet_deactivation_characterization 800 600 0 ⟨5, 0, 0, 0, 5, 4, false, true, 0, 0⟩
    ⟨fun _ => 0, 1, 0⟩ ⟨⟨0, 0, 20, 50⟩, [], [⟨5, 0, 4, false, 5, 0, 10, 0, true⟩]⟩).2
    0 ⟨5, 0, 4, false, 5, 0, 10, 0, true⟩ rfl

/-! ## Score accounting (C5) -/

theorem bulletMonsterStep_parts (st : BulletPass) (m : WMonster) :
    (bulletMonsterStep st m).score =
      (if circlesCollide st.bullet.circle m.circle then
        (if st.bullet.isPlayerBullet then st.score + 50 else st.score)
       else st.score) ∧
    (bulletMonsterStep st m).bullet.isPlayerBullet = st.bullet.isPlayerBullet ∧
    (bulletMonsterStep st m).bullet.circle = st.bullet.circle := by
  unfold bulletMonsterStep
  by_cases hc : circlesCollide st.bullet.circle m.circle
  · rw [if_pos hc, if_pos hc]
    by_cases hmax : st.bullet.maxPierceCount < st.bullet.currentPierceCount + 1
    · by_cases hu : st.bulletUpdated
      · simp only [jsor_zero_right, if_pos hmax, if_pos hu]
        exact ⟨by trivial, by trivial, by trivial⟩
      · simp only [jsor_zero_right, if_pos hmax, if_neg hu]
        exact ⟨by trivial, by trivial, by trivial⟩
    · by_cases hu : st.bulletUpdated
      · simp only [jsor_zero_right, if_neg hmax, if_pos hu]
        exact ⟨by trivial, by trivial, by trivial⟩
      · simp only [jsor_zero_right, if_neg hmax, if_neg hu]
        exact ⟨by trivial, by trivial, by trivial⟩
  · rw [if_neg hc, if_neg hc]
    exact ⟨rfl, rfl, rfl⟩

theorem bulletMonsterFold_score (ms : List WMonster) (st : BulletPass) :
    (ms.foldl bulletMonsterStep st).score =
      st.score + (if st.bullet.isPlayerBullet then
        (50:ℚ) * (hits st.bullet ms : ℚ) else 0) := by
  induction ms generalizing st with
  | nil =>
    cases hipb : st.bullet.isPlayerBullet <;> simp [hits, hipb]
  | cons m tl ih =>
    simp only [List.foldl_cons]
    obtain ⟨hsc, hipb, hcirc⟩ := bulletMonsterStep_parts st m
    rw [ih (bulletMonsterStep st m), hsc, hipb,
      hits_congr hcirc tl]
    by_cases hc : circlesCollide st.bullet.circle m.circle
    · have hhits : hits st.bullet (m :: tl) = hits st.bullet tl + 1 := by
        unfold hits
        rw [List.filter_cons]
        simp [hc]
      rw [if_pos hc, hhits]
      by_cases hp : st.bullet.isPlayerBullet
      · rw [if_pos hp, if_pos hp, if_pos hp]
        push_cast
        ring
      · rw [if_neg hp, if_neg hp, if_neg hp]
    · have hhits : hits st.bullet (m :: tl) = hits st.bullet tl := by
        unfold hits
        rw [List.filter_cons]
        simp [hc]
      rw [if_neg hc, hhits]

theorem phase3_score (ms : List WMonster) (bs : List WBullet) (st : Phase3St) :
    (bs.foldl (bulletMonsterPhase ms) st).score =
      st.score + (bs.map fun b =>
        if b.isPlayerBullet then (50:ℚ) * (hits b ms : ℚ) else 0).sum := by
  induction bs generalizing st with
  | nil => simp
  | cons b tl ih =>
    simp only [List.foldl_cons, List.map_cons, List.sum_cons]
    rw [ih]
    unfold bulletMonsterPhase
    simp only
    rw [bulletMonsterFold_score]
    show st.score + (if b.isPlayerBullet then (50:ℚ) * (hits b ms : ℚ) else 0) + _ = _
    ring

/-- The worker's score delta is `50` per player-bullet hit, summed over
the snapshot's bullets — in particular it is never negative. -/
theorem processCollisions_score (env : Env) (d : WData) :
    (processCollisions env d).results.score =
      (d.bullets.map fun b =>
        if b.isPlayerBullet then
          (50:ℚ) * (hits b (processCollisions env d).working : ℚ) else 0).sum ∧
    0 ≤ (processCollisions env d).results.score := by
  have hs : (processCollisions env d).results.score =
      (d.bullets.foldl
        (bulletMonsterPhase (processCollisions env d).working)
        ⟨[], (processCollisions env d).working.map toRMonster, [], 0⟩).score := rfl
  have h1 : (processCollisions env d).results.score =
      (d.bullets.map fun b =>
        if b.isPlayerBullet then
          (50:ℚ) * (hits b (processCollisions env d).working : ℚ) else 0).sum := by
    rw [hs, phase3_score]
    show (0:ℚ) + _ = _
    ring
  refine ⟨h1, ?_⟩
  rw [h1]
  apply List.sum_nonneg
  intro x hx
  simp only [List.mem_map] at hx
  obtain ⟨b, -, hb⟩ := hx
  rw [← hb]
  by_cases hipb : b.isPlayerBullet
  · rw [if_pos hipb]
    positivity
  · rw [if_neg hipb]

/-! ## Score merge at the coordinator (C5)
(`applyCollisionResults`: `src/unnamed/part_003` lines 790-849 — the
variant that *assigns* the frame delta — and lines 1407-1466 — the
variant that *adds* it) -/

/-- Decoded worker results as `deserializeResults` produces them
(`src/unnamed/part_003` lines 1359-1404). -/
structure DecMon where
  x : ℚ
  y : ℚ
  flash : Bool
  id : ℕ
deriving Repr, DecidableEq

/-- A decoded bullet update (id, active flag, pierce count). -/
structure DecBul where
  id : ℕ
  isActive : Bool
  currentPierceCount : ℚ
deriving Repr, DecidableEq

/-- The decoded result record: player position, monster updates, sparse
bullet updates and the frame's score delta. -/
structure DecodedResults where
  playerX : ℚ
  playerY : ℚ
  monsters : List DecMon
  bullets : List DecBul
  score : ℚ
deriving Repr, DecidableEq

/-- A main-thread monster as the merge sees it (`color` reduced to its
only observable here: whether it was set to the flash colour). -/
structure MainMon where
  x : ℚ
  y : ℚ
  colorWhite : Bool
  id : ℕ
deriving Repr, DecidableEq

/-- A main-thread bullet as the merge sees it. -/
structure MainBul where
  isActive : Bool
  currentPierceCount : ℚ
  id : ℕ
deriving Repr, DecidableEq

/-- The authoritative state the merge mutates. -/
structure MainState where
  playerX : ℚ
  playerY : ℚ
  score : ℚ
  monsters : List MainMon
  bullets : List MainBul
deriving Repr, DecidableEq

/-- `applyCollisionResults` of the transferable-buffer coordinator
(`src/unnamed/part_003` lines 1407-1466): player position overwritten;
monsters updated by index up to the shorter length (flash sets the
colour); bullet updates applied by id lookup; the decoded score delta is
*added* (`workerGameState.player.score += score`, line 1464). -/
def applyCollisionResultsV3 (st : MainState) (res : DecodedResults) : MainState :=
  { playerX := res.playerX
    playerY := res.playerY
    score := st.score + res.score
    monsters := st.monsters.enum.map fun p =>
      match res.monsters.get? p.1 with
      | some u =>
        { p.2 with
            x := u.x
            y := u.y
            colorWhite := if u.flash then true else p.2.colorWhite }
      | none => p.2
    bullets := res.bullets.foldl (fun acc u =>
      acc.map fun mb =>
        if mb.id = u.id then
          { mb with isActive := u.isActive, currentPierceCount := u.currentPierceCount }
        else mb) st.bullets }

/-- `applyCollisionResults` of the object-passing coordinator variant
(`src/unnamed/part_003` lines 790-849): same merge, but the score is
*overwritten* with the frame delta
(`workerGameState.player.score = score`, line 847). -/
def applyCollisionResultsV2 (st : MainState) (res : DecodedResults) : MainState :=
  { playerX := res.playerX
    playerY := res.playerY
    score := res.score
    monsters := st.monsters.enum.map fun p =>
      match res.monsters.find? (fun u => u.id = p.2.id) with
      | some u =>
        { p.2 with
            x := u.x
            y := u.y
            colorWhite := if u.flash then true else p.2.colorWhite }
      | none => p.2
    bullets := res.bullets.foldl (fun acc u =>
      acc.map fun mb =>
        if mb.id = u.id then
          { mb with isActive := u.isActive, currentPierceCount := u.currentPierceCount }
        else mb) st.bullets }

/-- C5, counterexample. The merge at `part_003` lines 845-849 assigns
the frame delta instead of adding it: merging a zero-delta result into a
state with score 100 leaves score 0, not 100 + 0 — the score decreases,
so it is not monotone across merges. -/
theorem score_merge_overwrites :
    (applyCollisionResultsV2 ⟨0, 0, 100, [], []⟩ ⟨0, 0, [], [], 0⟩).score = 0 ∧
    (0:ℚ) ≠ 100 + 0 ∧
    (applyCollisionResultsV2 ⟨0, 0, 100, [], []⟩ ⟨0, 0, [], [], 0⟩).score <
      (⟨0, 0, 100, [], []⟩ : MainState).score := by
  refine ⟨rfl, by norm_num, ?_⟩
  show (0:ℚ) < 100
  norm_num

/-- C5, amended. The merge at `part_003` lines 1462-1465 adds the
decoded delta: score' = score + delta.  Worker deltas are sums of 50 per
player-bullet hit, hence non-negative; consequently, under that merge the
score is non-decreasing across any sequence of worker results and stays
non-negative from a non-negative start.  (The variant at lines 845-849
overwrites the score and has neither property.) -/
theorem score_merge_adds_and_monotone :
    (∀ (st : MainState) (res : DecodedResults),
      (applyCollisionResultsV3 st res).score = st.score + res.score) ∧
    (∀ (env : Env) (d : WData), 0 ≤ (processCollisions env d).results.score) ∧
    (∀ (st : MainState) (ress : List DecodedResults),
      (∀ r ∈ ress, 0 ≤ r.score) →
      st.score ≤ (ress.foldl applyCollisionResultsV3 st).score ∧
      (0 ≤ st.score → 0 ≤ (ress.foldl applyCollisionResultsV3 st).score)) := by
  refine ⟨fun st res => rfl, fun env d => (processCollisions_score env d).2, ?_⟩
  intro st ress
  induction ress generalizing st with
  | nil => exact fun _ => ⟨le_refl _, fun h => h⟩
  | cons r tl ih =>
    intro hr
    have h0 : 0 ≤ r.score := hr r (List.mem_cons_self _ _)
    have hrec := ih (applyCollisionResultsV3 st r)
      (fun r' hr' => hr r' (List.mem_cons_of_mem _ hr'))
    simp only [List.foldl_cons]
    have hstep : (applyCollisionResultsV3 st r).score = st.score + r.score := rfl
    constructor
    · refine le_trans ?_ hrec.1
      rw [hstep]
      linarith
    · intro hst
      exact hrec.2 (by rw [hstep]; linarith)

/-- Witness for `score_merge_adds_and_monotone`: merging two results
with deltas 50 and 0 into a zero-score state keeps the score monotone
and non-negative. -/
theorem score_merge_adds_and_monotone_witness :
    (⟨0, 0, 0, [], []⟩ : MainState).score ≤
      (([⟨1, 2, [], [], 50⟩, ⟨3, 4, [], [], 0⟩] :
        List DecodedResults).foldl applyCollisionResultsV3 ⟨0, 0, 0, [], []⟩).score ∧
    0 ≤ (([⟨1, 2, [], [], 50⟩, ⟨3, 4, [], [], 0⟩] :
        List DecodedResults).foldl applyCollisionResultsV3 ⟨0, 0, 0, [], []⟩).score := by
  have h := score_merge_adds_and_monotone.2.2 ⟨0, 0, 0, [], []⟩
    [⟨1, 2, [], [], 50⟩, ⟨3, 4, [], [], 0⟩]
    (by
      intro r hr
      simp only [List.mem_cons, List.not_mem_nil, or_false] at hr
      rcases hr with h | h
      · rw [h]
        norm_num
      · rw [h])
  exact ⟨h.1, h.2 (le_refl 0)⟩

/-! ## One bullet piercing three monsters in one pass (C7) -/

/-- The copy of a bullet pushed into `results.bullets` at its *first*
hit (`part_000` lines 301-305): pierce count one above the original,
the active flag cleared only when that single first hit alone already
exceeds the maximum. -/
def hitCopy (b : WBullet) : WBullet :=
  { b with
    currentPierceCount := jsor b.currentPierceCount 0 + 1
    isActive := if b.maxPierceCount < jsor b.currentPierceCount 0 + 1
      then false else b.isActive }

/-- The entries one bullet contributes to `results.bullets` in the
Bullet–Monster loop: one first-hit copy if it hits anything, else none. -/
def resultCopy (ms : List WMonster) (b : WBullet) : List WBullet :=
  if hits b ms = 0 then [] else [hitCopy b]

theorem bulletMonsterFold_rbullets_of_updated (ms : List WMonster)
    (st : BulletPass) (hu : st.bulletUpdated = true) :
    (ms.foldl bulletMonsterStep st).rbullets = st.rbullets := by
  induction ms generalizing st with
  | nil => rfl
  | cons m tl ih =>
    simp only [List.foldl_cons]
    have hstep : (bulletMonsterStep st m).rbullets = st.rbullets ∧
        (bulletMonsterStep st m).bulletUpdated = true := by
      unfold bulletMonsterStep
      by_cases hc : circlesCollide st.bullet.circle m.circle
      · rw [if_pos hc]
        simp [hu]
      · rw [if_neg hc]
        exact ⟨rfl, hu⟩
    rw [ih (bulletMonsterStep st m) hstep.2, hstep.1]

theorem bulletMonsterStep_first_hit (st : BulletPass) (m : WMonster)
    (hc : circlesCollide st.bullet.circle m.circle = true)
    (hu : st.bulletUpdated = false) :
    (bulletMonsterStep st m).rbullets = st.rbullets ++ [hitCopy st.bullet] ∧
    (bulletMonsterStep st m).bulletUpdated = true := by
  unfold bulletMonsterStep hitCopy
  rw [if_pos hc]
  by_cases hmax :
      st.bullet.maxPierceCount < jsor st.bullet.currentPierceCount 0 + 1
  · simp [hu, hmax]
  · simp [hu, hmax]

theorem bulletMonsterFold_rbullets (ms : List WMonster) (st : BulletPass)
    (hu : st.bulletUpdated = false) :
    (ms.foldl bulletMonsterStep st).rbullets =
      st.rbullets ++ resultCopy ms st.bullet := by
  induction ms generalizing st with
  | nil => simp [resultCopy, hits]
  | cons m tl ih =>
    simp only [List.foldl_cons]
    by_cases hc : circlesCollide st.bullet.circle m.circle
    · obtain ⟨h1, h2⟩ := bulletMonsterStep_first_hit st m hc hu
      rw [bulletMonsterFold_rbullets_of_updated tl _ h2, h1]
      have hhits : ¬hits st.bullet (m :: tl) = 0 := by
        unfold hits
        rw [List.filter_cons]
        simp [hc]
      unfold resultCopy
      rw [if_neg hhits]
    · have hstep : bulletMonsterStep st m = st := by
        unfold bulletMonsterStep
        rw [if_neg hc]
      have hhits : hits st.bullet (m :: tl) = hits st.bullet tl := by
        unfold hits
        rw [List.filter_cons]
        simp [hc]
      rw [hstep, ih st hu]
      unfold resultCopy
      rw [hhits]

theorem phase3_rbullets (ms : List WMonster) (bs : List WBullet) (st : Phase3St) :
    (bs.foldl (bulletMonsterPhase ms) st).rbullets =
      st.rbullets ++ (bs.map (resultCopy ms)).flatten := by
  induction bs generalizing st with
  | nil => simp
  | cons b tl ih =>
    simp only [List.foldl_cons, List.map_cons, List.flatten_cons]
    rw [ih]
    have hph : (bulletMonsterPhase ms st b).rbullets =
        st.rbullets ++ resultCopy ms b :=
      bulletMonsterFold_rbullets ms ⟨b, false, st.rmonsters, st.rbullets, st.score⟩ rfl
    rw [hph, List.append_assoc]

theorem phase4_rbullets (dp : Circle) (bs : List WBullet)
    (st : List WBullet × List WBullet) :
    (bs.foldl (bulletPlayerStep dp) st).2 =
      st.2 ++ ((bs.filter fun b => !b.isPlayerBullet && circlesCollide b.circle dp).map
        fun b => { b with isActive := false }) := by
  induction bs generalizing st with
  | nil => simp
  | cons b tl ih =>
    simp only [List.foldl_cons, List.filter_cons]
    by_cases hc : (!b.isPlayerBullet && circlesCollide b.circle dp) = true
    · have hstep : bulletPlayerStep dp st b =
          (st.1 ++ [{ b with isActive := false }],
           st.2 ++ [{ b with isActive := false }]) := by
        unfold bulletPlayerStep
        rw [if_pos hc]
      rw [hstep, ih, if_pos hc, List.map_cons]
      show (st.2 ++ [{ b with isActive := false }]) ++ _ = _
      rw [List.append_assoc]
      rfl
    · have hstep : bulletPlayerStep dp st b = (st.1 ++ [b], st.2) := by
        unfold bulletPlayerStep
        rw [if_neg hc]
      rw [hstep, ih, if_neg hc]

/-- The sparse `results.bullets` list of one collision pass: per
snapshot bullet its first-hit copy (if it hit any monster), then per
enemy bullet that overlaps the snapshot player a deactivated copy of
its post-monster-phase state. -/
theorem processCollisions_rbullets (env : Env) (d : WData) :
    (processCollisions env d).results.bullets =
      (d.bullets.map (resultCopy (processCollisions env d).working)).flatten ++
      (((d.bullets.map (bulletAfterMonsters (processCollisions env d).working)).filter
        fun b => !b.isPlayerBullet && circlesCollide b.circle d.player).map
        fun b => { b with isActive := false }) := by
  have h : (processCollisions env d).results.bullets =
      ((d.bullets.foldl
        (bulletMonsterPhase (processCollisions env d).working)
        ⟨[], (processCollisions env d).working.map toRMonster, [], 0⟩).bullets.foldl
        (bulletPlayerStep d.player)
        ([], (d.bullets.foldl
          (bulletMonsterPhase (processCollisions env d).working)
          ⟨[], (processCollisions env d).working.map toRMonster, [], 0⟩).rbullets)).2 := rfl
  rw [h, phase4_rbullets, phase3_rbullets, phase3_bullets]
  simp

/-- A concrete oracle environment for closed evaluations; the scenario
below never consults it (no monster–monster or monster–player overlap). -/
def env0 : Env := ⟨fun _ => 0, 0, 0⟩

/-- A concrete snapshot: the player far away, three monsters in three
distinct, non-adjacent grid cells, and one active player bullet with
`maxPierceCount = 2` overlapping all three monsters. -/
def c7data : WData :=
  ⟨⟨1000, 1000, 20, 50⟩,
   [⟨25, 25, 1, 10, 0⟩, ⟨125, 25, 1, 10, 1⟩, ⟨225, 25, 1, 10, 2⟩],
   [⟨125, 25, 102, true, 10, 0, 2, 0, true⟩]⟩

theorem c7data_working :
    (processCollisions env0 c7data).working = c7data.monsters := by
  show monsterMonsterPhase env0
    (playerMonsterPhase env0 c7data.player c7data.monsters).2 = c7data.monsters
  have hr : List.range 3 = [0, 1, 2] := rfl
  have h1 : playerMonsterPhase env0 c7data.player c7data.monsters =
      (c7data.player, c7data.monsters) := by
    norm_num [playerMonsterPhase, playerMonsterStep, circlesCollide,
      WMonster.circle, c7data, hr]
  rw [h1]
  norm_num [monsterMonsterPhase, buildGrid, cellOf, neighborCells, gridInsert,
    innerPairs, c7data, List.enum, List.enumFrom, circlesCollide, WMonster.circle,
    Prod.mk.injEq, -Prod.mk_zero_zero]

theorem c7hits :
    hits ⟨125, 25, 102, true, 10, 0, 2, 0, true⟩ c7data.monsters = 3 := by
  norm_num [hits, c7data, circlesCollide, WBullet.circle, WMonster.circle,
    List.filter_cons]

/-- C7 counterexample to the claim's "the bullet is inactive for the
next tick": on a snapshot where one active player bullet with
`maxPierceCount = 2` overlaps three monsters, the worker's own bullet
array does end the pass at pierce count 3, inactive, with score delta
150 — but the `results.bullets` entry it sends back to the game is the
copy taken at the *first* hit, reporting pierce count 1 and
`isActive = true`, so the game applying the results still sees the
bullet as active on the next tick. -/
theorem worker_pierce_result_still_active :
    ((processCollisions env0 c7data).dataBullets.map
      fun b => (b.currentPierceCount, b.isActive)) = [((3:ℚ), false)] ∧
    (processCollisions env0 c7data).results.score = 150 ∧
    ((processCollisions env0 c7data).results.bullets.map
      fun b => (b.currentPierceCount, b.isActive)) = [((1:ℚ), true)] := by
  have hb : c7data.bullets = [⟨125, 25, 102, true, 10, 0, 2, 0, true⟩] := rfl
  refine ⟨?_, ?_, ?_⟩
  · rw [processCollisions_dataBullets env0 c7data, hb]
    simp only [List.map_cons, List.map_nil]
    norm_num [bulletAfterMonsters, bulletAfterPlayer, c7data_working, c7hits,
      decide_eq_false_iff_not, decide_eq_true_eq]
  · rw [(processCollisions_score env0 c7data).1, hb]
    simp only [List.map_cons, List.map_nil]
    norm_num [c7data_working, c7hits]
  · rw [processCollisions_rbullets env0 c7data, hb]
    simp only [List.map_cons, List.map_nil, List.flatten_cons, List.flatten_nil,
      List.append_nil, List.filter_cons, List.filter_nil]
    norm_num [resultCopy, hitCopy, bulletAfterMonsters, jsor, c7data_working,
      c7hits, decide_eq_false_iff_not, decide_eq_true_eq]

/-- C7. A player bullet with `maxPierceCount = 2` and pierce count 0
that overlaps three working monsters in one collision pass: the loop
keeps testing monsters after deactivating the bullet, so the worker's
bullet array ends the pass with `currentPierceCount = 3` and
`isActive = false`, and the frame's score delta is `3 * 50 = 150`; but
the entry placed in `results.bullets` — the record the game applies for
the next tick — is the copy taken at the *first* hit, with pierce count
1 and the active flag still set. -/
theorem pierce_overflow_scenario (env : Env) (d : WData) (b : WBullet)
    (hb : d.bullets = [b])
    (hpb : b.isPlayerBullet = true)
    (hp : b.currentPierceCount = 0)
    (hm : b.maxPierceCount = 2)
    (hact : b.isActive = true)
    (hh : hits b (processCollisions env d).working = 3) :
    (processCollisions env d).dataBullets =
      [{ b with currentPierceCount := 3, isActive := false }] ∧
    (processCollisions env d).results.score = 150 ∧
    (processCollisions env d).results.bullets =
      [{ b with currentPierceCount := 1, isActive := true }] := by
  have h3 : bulletAfterMonsters (processCollisions env d).working b =
      { b with currentPierceCount := 3, isActive := false } := by
    unfold bulletAfterMonsters
    rw [hh, hp, hm, hact]
    norm_num [WBullet.mk.injEq, decide_eq_false_iff_not]
  have h4 : bulletAfterPlayer d.player
      ({ b with currentPierceCount := (3:ℚ), isActive := false }) =
      { b with currentPierceCount := 3, isActive := false } := by
    simp [bulletAfterPlayer, hpb]
  have hcopy : resultCopy (processCollisions env d).working b =
      [{ b with currentPierceCount := 1, isActive := true }] := by
    unfold resultCopy hitCopy
    rw [hh, hp, hm, hact]
    norm_num [jsor, WBullet.mk.injEq]
  refine ⟨?_, ?_, ?_⟩
  · rw [processCollisions_dataBullets env d, hb]
    simp only [List.map_cons, List.map_nil]
    rw [h3, h4]
  · rw [(processCollisions_score env d).1, hb]
    simp only [List.map_cons, List.map_nil, hpb, hh]
    norm_num
  · rw [processCollisions_rbullets env d, hb]
    simp only [List.map_cons, List.map_nil, List.flatten_cons, List.flatten_nil,
      List.append_nil, hcopy, h3, List.filter_cons, List.filter_nil]
    simp [hpb]

/-- Witness for `pierce_overflow_scenario`: the concrete snapshot
`c7data` (three monsters, one player bullet with `maxPierceCount = 2`
overlapping all of them). -/
theorem pierce_overflow_scenario_witness :
    (processCollisions env0 c7data).dataBullets =
      [{ (⟨125, 25, 102, true, 10, 0, 2, 0, true⟩ : WBullet) with
          currentPierceCount := 3, isActive := false }] ∧
    (processCollisions env0 c7data).results.score = 150 ∧
    (processCollisions env0 c7data).results.bullets =
      [{ (⟨125, 25, 102, true, 10, 0, 2, 0, true⟩ : WBullet) with
          currentPierceCount := 1, isActive := true }] :=
  pierce_overflow_scenario env0 c7data ⟨125, 25, 102, true, 10, 0, 2, 0, true⟩
    rfl rfl rfl rfl rfl (by rw [c7data_working]; exact c7hits)

end MS
